import Mathlib

/-!
Shallow embedding of the sdqrag multi-strategy search engine.

Sources modelled:
* `services/search_service.py` — strategy runners (`_exact_search`,
  `_fuzzy_search`, `_semantic_search`) and the rank-fusion routine
  `_combine_and_rank_results`, plus the dispatcher `search_by_method`.
* `services/embedding_service.py` — `search_index`, `_search_faiss_index`,
  `_search_tfidf_index`, `create_faiss_index`, `create_tfidf_index`,
  `_collect_texts_for_indexing`.
* `routes/embedding_routes.py` — `rebuild_indexes` (synchronous part and the
  background `rebuild_task`).
* `routes/search_routes.py` — the `test_search` request guard.

Numeric scores are Python floats in the source; they are modelled as `ℚ`
(the arithmetic involved is products, divisions by 100 and comparisons, all
exact on the values used).  Third-party library calls (sentence-transformers
encoding, `faiss.normalize_L2`, sklearn's TF-IDF cosine similarity,
fuzzywuzzy's `process.extract`) are environment parameters; their documented
contracts appear as explicit hypotheses where a theorem needs them.
-/

/-- Python's `str.lower()` applied before comparisons: lower-case the
character list of a string (ASCII case folding, which covers every string
literal the service compares). -/
def lc (s : String) : List Char := s.toList.map Char.toLower

/-- Python's substring test `needle in hay` on lower-cased strings:
`lc needle` occurs contiguously inside `lc hay`. -/
def strIn (needle hay : String) : Prop := lc needle <:+: lc hay

instance (n h : String) : Decidable (strIn n h) := by
  unfold strIn; infer_instance

/-- One table row of the metadata store (`models.TableInfo`); `columns` is
the `name` list of `get_schema()['columns']` paired with each column's
`type` field. -/
structure Table where
  id : Nat
  project_id : Nat
  table_name : String
  description : String
  columns : List (String × String)
deriving Repr, DecidableEq

/-- One glossary row of the metadata store (`models.DataDictionary`). -/
structure DictEntry where
  id : Nat
  project_id : Nat
  term : String
  definition : String
  category : String
  aliases : List String
deriving Repr, DecidableEq

/-- One result dictionary produced by a strategy runner.  The Python code
uses free-form dicts with per-variant keys; the fields below are the union
of the keys the fusion logic and the claims inspect.  `typ` is the dict's
`type` key, `name` holds `name`/`term`/`column_name` for display, `source`
is the provenance tag the runner writes. -/
structure RawResult where
  typ : String
  id : Nat := 0
  table_id : Nat := 0
  table_name : String := ""
  column_name : String := ""
  name : String := ""
  score : ℚ
  search_method : String
  source : String := ""
  matched_alias : Option String := none
  index_id : Nat := 0
deriving Repr, DecidableEq

/-- Deduplication key built in `_combine_and_rank_results` (lines 470-477):
`table_{id}`, `column_{table_id}_{column_name}`, `dict_{id}`, otherwise
`{type}_{id}`. -/
def itemId (r : RawResult) : String :=
  if r.typ = "table" then "table_" ++ toString r.id
  else if r.typ = "column" then "column_" ++ toString r.table_id ++ "_" ++ r.column_name
  else if r.typ = "dictionary" then "dict_" ++ toString r.id
  else r.typ ++ "_" ++ toString r.id

/-- Weight lookup `weights.get(method_name, 0.5)` (line 466). -/
def weightOf (w : List (String × ℚ)) (m : String) : ℚ :=
  match w.find? (fun p => p.1 = m) with
  | some p => p.2
  | none => 1/2

/-- Default `method_weights` (lines 450-455). -/
def defaultWeights : List (String × ℚ) :=
  [("exact", 1), ("semantic", 4/5), ("fuzzy", 3/5), ("keyword", 7/10)]

/-- One surviving fused record: the payload dict plus the internal fields
`item_id`, `weighted_score`, `search_methods` that
`_combine_and_rank_results` stores on it. -/
structure FusedRec where
  res : RawResult
  item_id : String
  weighted_score : ℚ
  search_methods : List String
deriving Repr, DecidableEq

/-- Body of the duplicate branch (lines 488-493): the existing record is
touched only when the new weighted score is strictly greater, in which case
the payload is overwritten (`existing.update(result)`), the weighted score
replaced and the method name appended if absent.  A duplicate that does not
beat the running score leaves the record untouched — and in particular is
not appended to `search_methods`. -/
def applyUpd (r : RawResult) (ws : ℚ) (m : String) (e : FusedRec) : FusedRec :=
  if ws > e.weighted_score then
    { res := r, item_id := e.item_id, weighted_score := ws,
      search_methods :=
        if m ∈ e.search_methods then e.search_methods
        else e.search_methods ++ [m] }
  else e

/-- The duplicate branch (lines 484-494): scan `combined` for the first
record with this `item_id` and apply `applyUpd` to it; the `break` stops
the scan after the first hit. -/
def updateExisting (c : List FusedRec) (iid : String) (r : RawResult) (ws : ℚ)
    (m : String) : List FusedRec :=
  match c with
  | [] => []
  | e :: rest =>
    if e.item_id = iid then applyUpd r ws m e :: rest
    else e :: updateExisting rest iid r ws m

/-- Weighted score of a labelled candidate,
`weighted_score = original_score * weight` (lines 480-481). -/
def wsOf (w : List (String × ℚ)) (p : String × RawResult) : ℚ :=
  p.2.score * weightOf w p.1

/-- Processing of one candidate inside the per-method loop
(lines 468-501).  State is `(combined, seen_items)`: a seen identity goes
through the duplicate branch, an unseen one is appended with its method as
the singleton `search_methods`. -/
def fuseStep (w : List (String × ℚ)) (st : List FusedRec × List String)
    (p : String × RawResult) : List FusedRec × List String :=
  if itemId p.2 ∈ st.2 then
    (updateExisting st.1 (itemId p.2) p.2 (wsOf w p) p.1, st.2)
  else
    (st.1 ++ [{ res := p.2, item_id := itemId p.2, weighted_score := wsOf w p,
                search_methods := [p.1] }], st.2 ++ [itemId p.2])

/-- The four per-strategy result lists of `search_entities`, iterated in
dict insertion order `semantic, keyword, fuzzy, exact`
(`combined_results` is skipped). -/
structure AllResults where
  semantic : List RawResult
  keyword : List RawResult
  fuzzy : List RawResult
  exact : List RawResult
deriving Repr, DecidableEq

/-- The labelled candidate stream the nested loops of
`_combine_and_rank_results` traverse: methods in dict order, candidates in
list order. -/
def pairs (ar : AllResults) : List (String × RawResult) :=
  ar.semantic.map (fun r => ("semantic", r)) ++
  ar.keyword.map (fun r => ("keyword", r)) ++
  ar.fuzzy.map (fun r => ("fuzzy", r)) ++
  ar.exact.map (fun r => ("exact", r))

/-- The grouping/deduplication loop of `_combine_and_rank_results`
(lines 457-501) as a fold over the labelled candidate stream. -/
def fuseAll (w : List (String × ℚ)) (l : List (String × RawResult)) :
    List FusedRec × List String :=
  l.foldl (fuseStep w) ([], [])

/-- `combined` after the grouping loop. -/
def combineGroups (w : List (String × ℚ)) (ar : AllResults) : List FusedRec :=
  (fuseAll w (pairs ar)).1

/-- Specification predicate for one surviving fused record with respect to
the processed candidate stream `l`: its weighted score is attained by some
candidate of its identity group and dominates every candidate of the
group, and every recorded strategy produced some candidate of the group. -/
def RecProp (w : List (String × ℚ)) (l : List (String × RawResult))
    (f : FusedRec) : Prop :=
  (∃ p ∈ l, itemId p.2 = f.item_id ∧ wsOf w p = f.weighted_score) ∧
  (∀ p ∈ l, itemId p.2 = f.item_id → wsOf w p ≤ f.weighted_score) ∧
  (∀ m ∈ f.search_methods, ∃ p ∈ l, p.1 = m ∧ itemId p.2 = f.item_id)

/-- Loop invariant of the grouping fold: `seen_items` mirrors the item ids
of `combined`, ids are unique, every processed candidate's id has been
seen, and every record satisfies `RecProp`. -/
def FuseInv (w : List (String × ℚ)) (l : List (String × RawResult))
    (S : List FusedRec × List String) : Prop :=
  S.2 = S.1.map (fun f => f.item_id) ∧
  (S.1.map (fun f => f.item_id)).Nodup ∧
  (∀ p ∈ l, itemId p.2 ∈ S.2) ∧
  (∀ f ∈ S.1, RecProp w l f)

/-- Stable insertion in front of the first strictly lower-keyed element:
building block of the model of CPython's stable `list.sort` with
`reverse=True`. -/
def insertDescBy (f : α → ℚ) (x : α) : List α → List α
  | [] => [x]
  | y :: ys => if f x ≥ f y then x :: y :: ys else y :: insertDescBy f x ys

/-- Stable sort, descending by key `f`; elements with equal keys keep their
original relative order. -/
def sortDescBy (f : α → ℚ) : List α → List α
  | [] => []
  | x :: xs => insertDescBy f x (sortDescBy f xs)

/-- Stable insertion for ascending order. -/
def insertAscBy (f : α → ℚ) (x : α) : List α → List α
  | [] => [x]
  | y :: ys => if f x ≤ f y then x :: y :: ys else y :: insertAscBy f x ys

/-- Stable sort, ascending by key `f`. -/
def sortAscBy (f : α → ℚ) : List α → List α
  | [] => []
  | x :: xs => insertAscBy f x (sortAscBy f xs)

/-- CPython's stable `list.sort(key=lambda x: x.get('weighted_score', 0),
reverse=True)` (line 504): descending by weighted score, ties kept in
insertion order.  Every record in `combined` carries `weighted_score`, so
the `.get` default never fires. -/
def sortDesc : List FusedRec → List FusedRec :=
  sortDescBy (fun e => e.weighted_score)

/-- Final output row of the fusion: 1-based `rank`, `confidence` and the
surviving payload/methods (internal fields `item_id`/`weighted_score` are
popped, lines 507-513). -/
structure CombinedResult where
  res : RawResult
  search_methods : List String
  rank : Nat
  confidence : ℚ
deriving Repr, DecidableEq

/-- `round(x, 3)` on the weighted score (line 509).  Python rounds binary
floats half-to-even; on the exact rationals of this model the two rules
differ only at exact half-thousandths, which no claim exercises. -/
def roundQ3 (q : ℚ) : ℚ := round (q * 1000) / 1000

/-- Rank assignment and internal-field removal (lines 507-513). -/
def finalize (l : List FusedRec) : List CombinedResult :=
  l.enum.map (fun p =>
    { res := p.2.res, search_methods := p.2.search_methods,
      rank := p.1 + 1, confidence := roundQ3 p.2.weighted_score })

/-- Fusion configuration: `method_weights` and `max_combined_results` as
read from `config` with their defaults (lines 450, 516). -/
structure FusionConfig where
  method_weights : Option (List (String × ℚ)) := none
  max_combined_results : Option Nat := none
deriving Repr

/-- `_combine_and_rank_results` end to end: group/deduplicate, stable sort
by weighted score descending, rank, round, truncate to
`max_combined_results` (default 20). -/
def combine_and_rank_results (cfg : FusionConfig) (ar : AllResults) :
    List CombinedResult :=
  let w := cfg.method_weights.getD defaultWeights
  (finalize (sortDesc (combineGroups w ar))).take
    (cfg.max_combined_results.getD 20)

/-! ## Metadata store and strategy runners -/

/-- The project metadata the runners query (`TableInfo` and
`DataDictionary` rows). -/
structure MetaStore where
  tables : List Table
  dict_entries : List DictEntry
deriving Repr

/-- `TableInfo.query.filter_by(project_id=project_id).all()`. -/
def tablesOf (ms : MetaStore) (pid : Nat) : List Table :=
  ms.tables.filter (fun t => t.project_id = pid)

/-- `DataDictionary.query.filter_by(project_id=project_id).all()`. -/
def dictOf (ms : MetaStore) (pid : Nat) : List DictEntry :=
  ms.dict_entries.filter (fun e => e.project_id = pid)

/-- Table block of `_exact_search` (lines 344-361): emit a candidate when
the lowered query occurs inside the lowered table name (one direction
only); score 1.0 on equality, else 0.8. -/
def exactSearchTables (q : String) (ts : List Table) : List RawResult :=
  ts.filterMap (fun t =>
    if strIn q t.table_name then
      some { typ := "table", id := t.id, name := t.table_name,
             table_name := t.table_name,
             score := if lc q = lc t.table_name then 1 else 4/5,
             search_method := "exact", source := "table_names" }
    else none)

/-- Column block of `_exact_search` (lines 363-385). -/
def exactSearchColumns (q : String) (ts : List Table) : List RawResult :=
  ts.flatMap (fun t =>
    t.columns.filterMap (fun col =>
      if strIn q col.1 then
        some { typ := "column", table_id := t.id, table_name := t.table_name,
               column_name := col.1,
               score := if lc q = lc col.1 then 1 else 4/5,
               search_method := "exact", source := "column_names" }
      else none))

/-- Dictionary block of `_exact_search` (lines 387-437): term match scores
1.0 on equality else 0.9; otherwise a definition hit scores 0.7; alias
matches are checked independently afterwards and score 0.9 on equality
else 0.7. -/
def exactSearchDict (q : String) (es : List DictEntry) : List RawResult :=
  es.flatMap (fun e =>
    (if strIn q e.term then
      [{ typ := "dictionary", id := e.id, name := e.term,
         score := if lc q = lc e.term then 1 else 9/10,
         search_method := "exact", source := "dictionary_terms" }]
     else if e.definition ≠ "" ∧ strIn q e.definition then
      [{ typ := "dictionary", id := e.id, name := e.term, score := 7/10,
         search_method := "exact", source := "dictionary_definitions" }]
     else []) ++
    e.aliases.filterMap (fun a =>
      if strIn q a then
        some { typ := "dictionary", id := e.id, name := e.term,
               matched_alias := some a,
               score := if lc q = lc a then 9/10 else 7/10,
               search_method := "exact", source := "dictionary_aliases" }
      else none))

/-- `_exact_search` (lines 337-443): the three blocks run when the entity
type hint allows them (`'unknown'` enables all). -/
def exact_search (ms : MetaStore) (pid : Nat) (q : String) (etype : String) :
    List RawResult :=
  (if etype = "table" ∨ etype = "unknown" then
    exactSearchTables q (tablesOf ms pid) else []) ++
  (if etype = "column" ∨ etype = "unknown" then
    exactSearchColumns q (tablesOf ms pid) else []) ++
  (if etype = "business_term" ∨ etype = "unknown" then
    exactSearchDict q (dictOf ms pid) else [])

/-- Table block of `_simple_keyword_search` (lines 173-190): same
containment and 1.0/0.8 scoring as the exact block, tagged `keyword`. -/
def simpleKeywordTables (q : String) (ts : List Table) : List RawResult :=
  ts.filterMap (fun t =>
    if strIn q t.table_name then
      some { typ := "table", id := t.id, name := t.table_name,
             table_name := t.table_name,
             score := if lc q = lc t.table_name then 1 else 4/5,
             search_method := "keyword", source := "table_names" }
    else none)

/-- Column block of `_simple_keyword_search` (lines 192-215). -/
def simpleKeywordColumns (q : String) (ts : List Table) : List RawResult :=
  ts.flatMap (fun t =>
    t.columns.filterMap (fun col =>
      if strIn q col.1 then
        some { typ := "column", table_id := t.id, table_name := t.table_name,
               column_name := col.1,
               score := if lc q = lc col.1 then 1 else 4/5,
               search_method := "keyword", source := "column_names" }
      else none))

/-- Dictionary block of `_simple_keyword_search` (lines 217-234): a term or
definition hit scores 1.0 on term equality else 0.8. -/
def simpleKeywordDict (q : String) (es : List DictEntry) : List RawResult :=
  es.filterMap (fun e =>
    if strIn q e.term ∨ (e.definition ≠ "" ∧ strIn q e.definition) then
      some { typ := "dictionary", id := e.id, name := e.term,
             score := if lc q = lc e.term then 1 else 4/5,
             search_method := "keyword", source := "data_dictionary" }
    else none)

/-- `_simple_keyword_search` (lines 166-240). -/
def simple_keyword_search (ms : MetaStore) (pid : Nat) (q : String)
    (etype : String) : List RawResult :=
  (if etype = "table" ∨ etype = "unknown" then
    simpleKeywordTables q (tablesOf ms pid) else []) ++
  (if etype = "column" ∨ etype = "unknown" then
    simpleKeywordColumns q (tablesOf ms pid) else []) ++
  (if etype = "business_term" ∨ etype = "unknown" then
    simpleKeywordDict q (dictOf ms pid) else [])

/-! ## Index records, persisted contents and the service environment -/

/-- One `models.EmbeddingModel` row (the fields the services read). -/
structure EmbModel where
  id : Nat
  project_id : Nat
  model_name : String
  is_downloaded : Bool
  status : String
  model_path : Option String
deriving Repr, DecidableEq

/-- One `models.SearchIndex` row (the fields the services read or write). -/
structure IndexRec where
  id : Nat
  project_id : Nat
  embedding_model_id : Option Nat
  index_name : String
  index_type : String
  target_type : String
  target_ids : List Nat
  index_path : Option String
  vector_count : Nat
  is_built : Bool
  build_progress : ℚ
  status : String
  error_message : Option String
deriving Repr, DecidableEq

/-- A persisted index file: the similarity structure together with the
parallel metadata list (`faiss_<id>.index` plus `_metadata.pkl`, or the
pickled TF-IDF dict).  Each entry pairs a metadata record with its stored
vector (a normalized embedding for FAISS, a document row for TF-IDF). -/
inductive IndexContent where
  | faiss (entries : List (RawResult × List ℚ))
  | tfidf (entries : List (RawResult × List ℚ))
deriving Repr

/-- Environment of the services: the metadata store, the model rows and the
third-party collaborators.  `encode` is `SentenceTransformer.encode`
(one vector per input text), `normalize` is `faiss.normalize_L2`,
`tfidfSim` is sklearn's `cosine_similarity(vectorizer.transform([q]), row)`,
`extractPairs` is fuzzywuzzy's `process.extract` (match/score pairs, scores
0-100), `files` is the persisted-index storage, and the `*_ok` flags model
whether the corresponding third-party call raises. -/
structure Env where
  metastore : MetaStore
  models : List EmbModel
  encode : String → List ℚ
  normalize : List ℚ → List ℚ
  tfidfSim : String → List ℚ → ℚ
  extractPairs : String → List String → List (String × Nat)
  files : String → Option IndexContent
  path_exists : String → Bool
  model_loads : Nat → Bool
  encode_ok : Bool
  fit_ok : Bool
  write_ok : Bool

/-- Fuzzy-search table block (lines 249-273): `process.extract` over the
project's table names, keep scores at or above the threshold, divide by
100, recover the table row of the first name equal to the match. -/
def fuzzySearchTables (env : Env) (threshold : ℚ) (q : String)
    (ts : List Table) : List RawResult :=
  if ts = [] then []
  else (env.extractPairs q (ts.map (fun t => t.table_name))).filterMap (fun p =>
    if (p.2 : ℚ) ≥ threshold then
      match ts.find? (fun t => t.table_name = p.1) with
      | some t =>
        some { typ := "table", id := t.id, name := t.table_name,
               table_name := t.table_name, score := (p.2 : ℚ) / 100,
               search_method := "fuzzy", source := "table_names" }
      | none => none
    else none)

/-- The `(name, table_id, table_name)` triples the fuzzy column block
builds (lines 279-285). -/
def fuzzyColumnData (ts : List Table) : List (String × Nat × String) :=
  ts.flatMap (fun t => t.columns.map (fun col => (col.1, t.id, t.table_name)))

/-- Fuzzy-search column block (lines 275-304). -/
def fuzzySearchColumns (env : Env) (threshold : ℚ) (q : String)
    (ts : List Table) : List RawResult :=
  let cd := fuzzyColumnData ts
  if cd = [] then []
  else (env.extractPairs q (cd.map (fun c => c.1))).filterMap (fun p =>
    if (p.2 : ℚ) ≥ threshold then
      match cd.find? (fun c => c.1 = p.1) with
      | some c =>
        some { typ := "column", table_id := c.2.1, table_name := c.2.2,
               column_name := p.1, score := (p.2 : ℚ) / 100,
               search_method := "fuzzy", source := "column_names" }
      | none => none
    else none)

/-- Fuzzy-search dictionary block (lines 306-329). -/
def fuzzySearchDict (env : Env) (threshold : ℚ) (q : String)
    (es : List DictEntry) : List RawResult :=
  if es = [] then []
  else (env.extractPairs q (es.map (fun e => e.term))).filterMap (fun p =>
    if (p.2 : ℚ) ≥ threshold then
      match es.find? (fun e => e.term = p.1) with
      | some e =>
        some { typ := "dictionary", id := e.id, name := e.term,
               score := (p.2 : ℚ) / 100,
               search_method := "fuzzy", source := "data_dictionary" }
      | none => none
    else none)

/-- `_fuzzy_search` (lines 242-335); `threshold` is
`config.get('fuzzy_threshold', 70)`. -/
def fuzzy_search (env : Env) (pid : Nat) (q : String) (etype : String)
    (threshold : ℚ) : List RawResult :=
  (if etype = "table" ∨ etype = "unknown" then
    fuzzySearchTables env threshold q (tablesOf env.metastore pid) else []) ++
  (if etype = "column" ∨ etype = "unknown" then
    fuzzySearchColumns env threshold q (tablesOf env.metastore pid) else []) ++
  (if etype = "business_term" ∨ etype = "unknown" then
    fuzzySearchDict env threshold q (dictOf env.metastore pid) else [])

/-! ## Per-index search (`EmbeddingService`) -/

/-- Inner product of two vectors (`faiss.IndexFlatIP` similarity). -/
def ip (a b : List ℚ) : ℚ := (List.zipWith (· * ·) a b).sum

/-- Sum of squares of a vector; `sumSq v = 1` states that `v` is
L2-normalized (unit Euclidean norm), without leaving `ℚ`. -/
def sumSq (v : List ℚ) : ℚ := (v.map (fun x => x * x)).sum

/-- `load_model` (lines 495-525) reduced to its success condition: the
model row exists, is downloaded and `ready`, its files exist, and the
`SentenceTransformer` constructor succeeds (`model_loads`). -/
def load_model (env : Env) (mid : Nat) : Bool :=
  match env.models.find? (fun m => m.id = mid) with
  | none => false
  | some m =>
    m.is_downloaded && (m.status == "ready") &&
    (match m.model_path with
     | some p => env.path_exists p
     | none => false) && env.model_loads m.id

/-- The `faiss_index.search(query, top_k)` result rows: score every stored
vector by inner product with the query vector, order descending (stable
model; FAISS tie order is unspecified and no claim depends on it) and keep
the first `top_k`, as `(score, position)` pairs.  A non-positive `top_k`
yields no rows. -/
def faissTopK (vecs : List (List ℚ)) (qv : List ℚ) (k : Int) :
    List (ℚ × Int) :=
  let scored := vecs.enum.map (fun p => (ip qv p.2, (p.1 : Int)))
  if k ≤ 0 then [] else (sortDescBy (fun s => s.1) scored).take k.toNat

/-- `_search_faiss_index` (lines 187-223): load index and metadata from
storage, embed and L2-normalize the query, search, and keep hits whose
position is a valid metadata index; every failure path (missing file,
unloadable model) is caught and returns `[]`. -/
def search_faiss_index (env : Env) (idx : IndexRec) (q : String) (k : Int) :
    List RawResult :=
  match idx.index_path.bind env.files with
  | some (.faiss entries) =>
    match idx.embedding_model_id with
    | none => []
    | some mid =>
      if load_model env mid = true then
        let qv := env.normalize (env.encode q)
        (faissTopK (entries.map (fun e => e.2)) qv k).filterMap (fun p =>
          if (0 : Int) ≤ p.2 ∧ p.2 < Int.ofNat entries.length then
            match entries.get? p.2.toNat with
            | some e => some { e.1 with score := p.1 }
            | none => none
          else none)
      else []
  | _ => []

/-- Python's `arr[s:]` slice on a list, with a possibly negative start. -/
def pySliceFrom (l : List α) (s : Int) : List α :=
  if 0 ≤ s then l.drop s.toNat else l.drop (l.length - (-s).toNat)

/-- `numpy.argsort` of a similarity vector: positions ordered by ascending
value (stable model; numpy's default sort is unstable on ties, which no
claim depends on). -/
def argsortAsc (sims : List ℚ) : List Nat :=
  sortAscBy (fun i => sims.getD i 0) (List.range sims.length)

/-- `_search_tfidf_index` (lines 225-259): compute cosine similarities of
the query against every stored row, take `argsort()[-top_k:][::-1]`, and
keep rows with strictly positive similarity.  Note the slice start is
`-top_k`, so `top_k = 0` selects every position. -/
def search_tfidf_index (env : Env) (idx : IndexRec) (q : String) (k : Int) :
    List RawResult :=
  match idx.index_path.bind env.files with
  | some (.tfidf entries) =>
    let sims := entries.map (fun e => env.tfidfSim q e.2)
    let topIdx := (pySliceFrom (argsortAsc sims) (-k)).reverse
    topIdx.filterMap (fun i =>
      if sims.getD i 0 > 0 then
        match entries.get? i with
        | some e => some { e.1 with score := sims.getD i 0 }
        | none => none
      else none)
  | _ => []

/-- `search_index` (lines 169-185): look the descriptor up, return `[]`
unless it is marked built (`is_built`; `status` is not consulted), then
dispatch on the index type; any exception is caught and becomes `[]`. -/
def search_index (env : Env) (st : List IndexRec) (iid : Nat) (q : String)
    (k : Int) : List RawResult :=
  match st.find? (fun i => i.id = iid) with
  | none => []
  | some idx =>
    if idx.is_built then
      if idx.index_type = "faiss" then search_faiss_index env idx q k
      else if idx.index_type = "tfidf" then search_tfidf_index env idx q k
      else []
    else []

/-! ## Strategy dispatch (`SearchService`) -/

/-- Optional search configuration with the source's defaults applied at
each read site. -/
structure SearchConfig where
  semantic_top_k : Option Int := none
  keyword_top_k : Option Int := none
  fuzzy_threshold : Option ℚ := none
  method_weights : Option (List (String × ℚ)) := none
  max_combined_results : Option Nat := none

/-- `_semantic_search` (lines 101-125): search every passed index whose
type is `faiss` and tag the hits. -/
def semantic_search (env : Env) (st : List IndexRec) (ixs : List IndexRec)
    (q : String) (k : Int) : List RawResult :=
  ixs.flatMap (fun ix =>
    if ix.index_type = "faiss" then
      (search_index env st ix.id q k).map (fun r =>
        { r with search_method := "semantic", index_id := ix.id })
    else [])

/-- `SearchIndex.query.filter_by(project_id=…, index_type='faiss',
is_built=True, status='ready')` (lines 77-82). -/
def readyFaissIndexes (st : List IndexRec) (pid : Nat) : List IndexRec :=
  st.filter (fun i => decide (i.project_id = pid ∧ i.index_type = "faiss" ∧
    i.is_built = true ∧ i.status = "ready"))

/-- The same filter for TF-IDF indexes (lines 134-139). -/
def readyTfidfIndexes (st : List IndexRec) (pid : Nat) : List IndexRec :=
  st.filter (fun i => decide (i.project_id = pid ∧ i.index_type = "tfidf" ∧
    i.is_built = true ∧ i.status = "ready"))

/-- All built/ready indexes of a project, any type (lines 32-36). -/
def readyIndexes (st : List IndexRec) (pid : Nat) : List IndexRec :=
  st.filter (fun i => decide (i.project_id = pid ∧ i.is_built = true ∧
    i.status = "ready"))

/-- `_keyword_search` (lines 127-164): search every ready TF-IDF index,
then fall back to `_simple_keyword_search` when the project has none. -/
def keyword_search (env : Env) (st : List IndexRec) (pid : Nat) (q : String)
    (etype : String) (cfg : SearchConfig) : List RawResult :=
  let tf := readyTfidfIndexes st pid
  (tf.flatMap (fun ix =>
    (search_index env st ix.id q (cfg.keyword_top_k.getD 5)).map (fun r =>
      { r with search_method := "keyword", index_id := ix.id }))) ++
  (if tf = [] then simple_keyword_search env.metastore pid q etype else [])

/-- `search_by_method` (lines 70-99): dispatch on the method name; an
unrecognized method yields `[]`; every strategy body is wrapped in a
catch-all that returns `[]`. -/
def search_by_method (env : Env) (st : List IndexRec) (pid : Nat)
    (q : String) (method : String) (cfg : SearchConfig) : List RawResult :=
  if method = "semantic" then
    semantic_search env st (readyFaissIndexes st pid) q
      (cfg.semantic_top_k.getD 5)
  else if method = "keyword" then
    keyword_search env st pid q "unknown" cfg
  else if method = "fuzzy" then
    fuzzy_search env pid q "unknown" (cfg.fuzzy_threshold.getD 70)
  else if method = "exact" then
    exact_search env.metastore pid q "unknown"
  else []

/-- The four result lists `search_entities` collects for one entity of
type `unknown` (lines 38-57). -/
def search_entities_results (env : Env) (st : List IndexRec) (pid : Nat)
    (q : String) (cfg : SearchConfig) : AllResults :=
  { semantic := semantic_search env st (readyIndexes st pid) q
      (cfg.semantic_top_k.getD 5),
    keyword := keyword_search env st pid q "unknown" cfg,
    fuzzy := fuzzy_search env pid q "unknown" (cfg.fuzzy_threshold.getD 70),
    exact := exact_search env.metastore pid q "unknown" }

/-! ## Index builds (`EmbeddingService.create_*_index`) -/

/-- `Table` text assembled by `_collect_texts_for_indexing` for
`target_type='tables'` (lines 545-558). -/
def tableText (t : Table) : String :=
  "Table: " ++ t.table_name ++
  (if t.description ≠ "" then " - " ++ t.description else "") ++
  (if t.columns ≠ [] then
    " Columns: " ++ String.intercalate ", " (t.columns.map (fun c => c.1))
  else "")

/-- Glossary text for `target_type='dictionary'` (lines 577-580). -/
def dictText (e : DictEntry) : String :=
  "Term: " ++ e.term ++ " - " ++ e.definition ++
  (if e.category ≠ "" then " (Category: " ++ e.category ++ ")" else "")

/-- Column text for `target_type='columns'` (lines 601-612); sample values
are not modelled (no claim reads the text contents). -/
def columnText (tname : String) (c : String × String) : String :=
  "Column: " ++ tname ++ "." ++ c.1 ++ " (Type: " ++ c.2 ++ ")"

/-- `_collect_texts_for_indexing` (lines 527-630): texts and parallel
metadata for the targeted elements; an id filter over an empty `target_ids`
matches nothing (SQL `IN ()`). -/
def collect_texts_for_indexing (env : Env) (targetType : String)
    (targetIds : List Nat) (pid : Nat) : List String × List RawResult :=
  if targetType = "tables" then
    let ts := env.metastore.tables.filter (fun t =>
      decide (t.id ∈ targetIds ∧ t.project_id = pid))
    (ts.map tableText,
     ts.map (fun t => { typ := "table", id := t.id, name := t.table_name,
                        score := 0, search_method := "",
                        source := "table_info" }))
  else if targetType = "dictionary" then
    let es := env.metastore.dict_entries.filter (fun e =>
      decide (e.id ∈ targetIds ∧ e.project_id = pid))
    (es.map dictText,
     es.map (fun e => { typ := "dictionary", id := e.id, name := e.term,
                        score := 0, search_method := "",
                        source := "data_dictionary" }))
  else if targetType = "columns" then
    let ts := env.metastore.tables.filter (fun t =>
      decide (t.id ∈ targetIds ∧ t.project_id = pid))
    (ts.flatMap (fun t => t.columns.map (columnText t.table_name)),
     ts.flatMap (fun t => t.columns.map (fun c =>
       { typ := "column", table_id := t.id, table_name := t.table_name,
         column_name := c.1, score := 0, search_method := "",
         source := "table_schema" })))
  else ([], [])

/-- Outcome dict of a build call. -/
inductive BuildOutcome where
  | ok (indexId : Nat) (vectorCount : Nat)
  | err (msg : String)
deriving Repr, DecidableEq

/-- `SearchIndex.query.filter_by(project_id=…, index_name=…).first()`. -/
def findByName (st : List IndexRec) (pid : Nat) (name : String) :
    Option IndexRec :=
  st.find? (fun i => decide (i.project_id = pid ∧ i.index_name = name))

/-- Update the (unique) record with the given id. -/
def setRec (st : List IndexRec) (rid : Nat) (f : IndexRec → IndexRec) :
    List IndexRec :=
  st.map (fun i => if i.id = rid then f i else i)

/-- Fresh primary key for a newly inserted row. -/
def freshId (st : List IndexRec) : Nat :=
  (st.map (fun i => i.id)).foldr max 0 + 1

/-- The failure commit `status='error'; error_message=msg`. -/
def markError (st : List IndexRec) (rid : Nat) (msg : String) :
    List IndexRec :=
  setRec st rid (fun i =>
    { i with status := "error", error_message := some msg })

/-- The success commit of a build (lines 370-376 / 468-474). -/
def markReady (path : String) (n : Nat) (i : IndexRec) : IndexRec :=
  { i with index_path := some path, vector_count := n, is_built := true,
           build_progress := 100, status := "ready" }

/-- Find-or-create of the descriptor row at the top of both builds
(lines 287-305 / 403-420): returns the id of the row the build will commit
to and the (possibly extended) table. -/
def findOrCreateIndex (st : List IndexRec) (pid : Nat) (name : String)
    (itype : String) (targetType : String) (targetIds : List Nat)
    (mid : Option Nat) : Nat × List IndexRec :=
  match findByName st pid name with
  | some r => (r.id, st)
  | none =>
    let nid := freshId st
    (nid, st ++ [{ id := nid, project_id := pid, embedding_model_id := mid,
                   index_name := name, index_type := itype,
                   target_type := targetType, target_ids := targetIds,
                   index_path := none, vector_count := 0, is_built := false,
                   build_progress := 0, status := "building",
                   error_message := none }])

/-- `create_faiss_index` (lines 262-395) as a state transformer over the
descriptor table.  Model-validation failures return before any descriptor
is touched; after the descriptor exists, every failure marks it `error`
and on success it is committed `ready` with
`vector_count = len(embeddings)`. -/
def create_faiss_index (env : Env) (st : List IndexRec) (pid : Nat)
    (mid : Option Nat) (name : String) (targetType : String)
    (targetIds : List Nat) : BuildOutcome × List IndexRec :=
  match mid.bind (fun m => env.models.find? (fun r => r.id = m)) with
  | none => (.err "Embedding model not found", st)
  | some m =>
    if ¬ (m.is_downloaded = true ∧ m.status = "ready") then
      (.err "Embedding model is not downloaded or ready", st)
    else
      match m.model_path with
      | none => (.err "Embedding model files not found", st)
      | some mp =>
        if ¬ env.path_exists mp = true then
          (.err "Embedding model files not found", st)
        else
          let fc := findOrCreateIndex st pid name "faiss" targetType
            targetIds mid
          let rid := fc.1
          let st1 := fc.2
          let texts := (collect_texts_for_indexing env targetType targetIds
            pid).1
          if texts = [] then
            (.err "No texts found for indexing",
             markError st1 rid "No texts found for indexing")
          else if ¬ load_model env (mid.getD 0) = true then
            (.err "Failed to load embedding model",
             markError st1 rid "Failed to load embedding model")
          else if ¬ env.encode_ok = true then
            (.err "Failed to generate embeddings",
             markError st1 rid "Failed to generate embeddings")
          else if ¬ env.write_ok = true then
            (.err "index write failed",
             markError st1 rid "index write failed")
          else
            let embeddings := texts.map env.encode
            (.ok rid embeddings.length,
             setRec st1 rid
               (markReady ("faiss_" ++ toString rid ++ ".index")
                 embeddings.length))

/-- `create_tfidf_index` (lines 397-493) as a state transformer: no model
validation; vectorizer fitting and the pickle write are the fallible
third-party steps; on success `vector_count = len(texts)`. -/
def create_tfidf_index (env : Env) (st : List IndexRec) (pid : Nat)
    (name : String) (targetType : String) (targetIds : List Nat) :
    BuildOutcome × List IndexRec :=
  let fc := findOrCreateIndex st pid name "tfidf" targetType targetIds none
  let rid := fc.1
  let st1 := fc.2
  let texts := (collect_texts_for_indexing env targetType targetIds pid).1
  if texts = [] then
    (.err "No texts found for indexing",
     markError st1 rid "No texts found for indexing")
  else if ¬ env.fit_ok = true then
    (.err "vectorizer fit failed", markError st1 rid "vectorizer fit failed")
  else if ¬ env.write_ok = true then
    (.err "index write failed", markError st1 rid "index write failed")
  else
    (.ok rid texts.length,
     setRec st1 rid (markReady ("tfidf_" ++ toString rid ++ ".pkl")
       texts.length))

/-! ## The rebuild endpoint (`routes/embedding_routes.py`) -/

/-- Response of `rebuild_indexes`: HTTP 202 with a count, or HTTP 404.
The handler has no conflict/`409` outcome and never inspects descriptor
status. -/
inductive RebuildResponse where
  | accepted (count : Nat)
  | notFound
deriving Repr, DecidableEq

/-- Index selection of `rebuild_indexes` (lines 427-436): the requested ids
restricted to the project, or every index of the project when no ids are
given. -/
def selectRebuild (st : List IndexRec) (pid : Nat) (ids : List Nat) :
    List IndexRec :=
  if ids ≠ [] then
    st.filter (fun i => decide (i.id ∈ ids ∧ i.project_id = pid))
  else st.filter (fun i => decide (i.project_id = pid))

/-- One iteration of `rebuild_task` (lines 452-508): skip a vanished id;
fail fast when a FAISS index's model is gone; otherwise reset the
descriptor to `building`/0/not-built, rerun the build, and commit the
outcome. -/
def rebuild_one (env : Env) (st : List IndexRec) (iid : Nat) :
    List IndexRec :=
  match st.find? (fun i => i.id = iid) with
  | none => st
  | some idx =>
    let modelMissing : Bool :=
      (idx.index_type == "faiss") &&
      (match idx.embedding_model_id with
       | none => false
       | some mid =>
         match env.models.find? (fun m => m.id = mid) with
         | none => true
         | some m => !(m.is_downloaded && (m.status == "ready")))
    if modelMissing then
      markError st iid "Embedding model not available for rebuild"
    else
      let st1 := setRec st iid (fun i =>
        { i with status := "building", build_progress := 0,
                 is_built := false })
      let built :=
        if idx.index_type = "faiss" then
          create_faiss_index env st1 idx.project_id idx.embedding_model_id
            idx.index_name idx.target_type idx.target_ids
        else if idx.index_type = "tfidf" then
          create_tfidf_index env st1 idx.project_id idx.index_name
            idx.target_type idx.target_ids
        else (.err ("Unsupported index type: " ++ idx.index_type), st1)
      match built with
      | (.ok _ _, st2) => setRec st2 iid (fun i =>
          { i with status := "ready", is_built := true,
                   build_progress := 100 })
      | (.err m, st2) => setRec st2 iid (fun i =>
          { i with status := "error", error_message := some m })

/-- The whole background `rebuild_task`, run sequentially over the selected
ids (the thread itself does not reorder them). -/
def rebuild_task (env : Env) (st : List IndexRec) (ids : List Nat) :
    List IndexRec :=
  ids.foldl (rebuild_one env) st

/-- `rebuild_indexes` (lines 420-526): select, 404 on an empty selection,
otherwise answer 202 immediately and run the rebuild task.  No descriptor
status is consulted before accepting. -/
def rebuild_indexes (env : Env) (st : List IndexRec) (pid : Nat)
    (ids : List Nat) : RebuildResponse × List IndexRec :=
  let sel := selectRebuild st pid ids
  if sel = [] then (.notFound, st)
  else (.accepted sel.length, rebuild_task env st (sel.map (fun i => i.id)))

/-! ## The `test_search` route guard (`routes/search_routes.py`) -/

/-- Parsed request body of `POST /search/<pid>/test`. -/
structure SearchRequest where
  query : String
  method : String := "semantic"

/-- Response of `test_search`. -/
inductive RouteResponse where
  | ok (results : List RawResult)
  | okCombined (results : List CombinedResult)
  | badRequest (msg : String)

/-- `test_search` (lines 55-94): a missing body or falsy (empty) `query`
is rejected with HTTP 400 before any strategy runs; an unknown method is
rejected; `combined` runs the full fusion, other methods dispatch to
`search_by_method`. -/
def test_search (env : Env) (st : List IndexRec) (pid : Nat)
    (body : Option SearchRequest) (cfg : SearchConfig) : RouteResponse :=
  match body with
  | none => .badRequest "Query is required"
  | some b =>
    if b.query = "" then .badRequest "Query is required"
    else if ¬ (b.method = "semantic" ∨ b.method = "keyword" ∨
               b.method = "fuzzy" ∨ b.method = "exact" ∨
               b.method = "combined") then
      .badRequest "Invalid method"
    else if b.method = "combined" then
      .okCombined (combine_and_rank_results
        { method_weights := cfg.method_weights,
          max_combined_results := cfg.max_combined_results }
        (search_entities_results env st pid b.query cfg))
    else .ok (search_by_method env st pid b.query b.method cfg)

/-! ## Concrete instances used by counterexamples and witnesses -/

/-- A metadata store with no rows. -/
def emptyMeta : MetaStore := { tables := [], dict_entries := [] }

/-- An environment whose store is empty and whose third-party calls are
trivial (encode to the zero-dimensional vector, no persisted files). -/
def env0 : Env :=
  { metastore := emptyMeta, models := [], encode := fun _ => [],
    normalize := fun v => v, tfidfSim := fun _ _ => 0,
    extractPairs := fun _ _ => [], files := fun _ => none,
    path_exists := fun _ => false, model_loads := fun _ => false,
    encode_ok := true, fit_ok := true, write_ok := true }

/-- Semantic candidate for table 1 with raw score 1.0 (weighted 0.8 under
default weights). -/
def rSemC1 : RawResult :=
  { typ := "table", id := 1, name := "customers", score := 1,
    search_method := "semantic", source := "table_names" }

/-- Exact candidate for the same table with raw score 0.7 (weighted 0.7):
a later, lower-scoring duplicate from another strategy. -/
def rExC1 : RawResult :=
  { typ := "table", id := 1, name := "customers", score := 7/10,
    search_method := "exact", source := "table_names" }

/-- Candidate map with one identity shared by two strategies. -/
def arC1 : AllResults :=
  { semantic := [rSemC1], keyword := [], fuzzy := [], exact := [rExC1] }

/-- The fused record the code produces for `arC1`. -/
def fC1 : FusedRec :=
  { res := rSemC1, item_id := "table_1", weighted_score := 4/5,
    search_methods := ["semantic"] }

/-- Two distinct tables found by one strategy with equal raw scores; table
2 is discovered first. -/
def rAC2 : RawResult :=
  { typ := "table", id := 2, name := "b", score := 1,
    search_method := "semantic", source := "table_names" }

/-- Equal-scored candidate for table 1, discovered second. -/
def rBC2 : RawResult :=
  { typ := "table", id := 1, name := "a", score := 1,
    search_method := "semantic", source := "table_names" }

/-- Candidate map with a weighted-score tie between two identities. -/
def arC2 : AllResults :=
  { semantic := [rAC2, rBC2], keyword := [], fuzzy := [], exact := [] }

/-- A sparse descriptor whose build is still in flight. -/
def idxC3 : IndexRec :=
  { id := 1, project_id := 1, embedding_model_id := none,
    index_name := "idx", index_type := "tfidf", target_type := "tables",
    target_ids := [1], index_path := none, vector_count := 0,
    is_built := false, build_progress := 30, status := "building",
    error_message := none }

/-- Descriptor table holding only the in-flight build. -/
def stC3 : List IndexRec := [idxC3]

/-- Metadata record stored in the dense index used for the score-range
counterexample. -/
def metaC4 : RawResult :=
  { typ := "table", id := 1, name := "customers", score := 0,
    search_method := "", source := "table_info" }

/-- Environment with one ready embedding model and one persisted dense
index holding the single unit vector `[-1, 0]`; the query embeds to the
unit vector `[1, 0]` (so `normalize_L2` leaves both unchanged). -/
def envC4 : Env :=
  { metastore := emptyMeta,
    models := [{ id := 1, project_id := 1, model_name := "m",
                 is_downloaded := true, status := "ready",
                 model_path := some "mp" }],
    encode := fun _ => [1, 0], normalize := fun v => v,
    tfidfSim := fun _ _ => 0, extractPairs := fun _ _ => [],
    files := fun p =>
      if p = "fp" then some (.faiss [(metaC4, [-1, 0])]) else none,
    path_exists := fun p => p = "mp", model_loads := fun _ => true,
    encode_ok := true, fit_ok := true, write_ok := true }

/-- Ready dense descriptor pointing at the persisted index of `envC4`. -/
def idxC4 : IndexRec :=
  { id := 1, project_id := 1, embedding_model_id := some 1,
    index_name := "sem", index_type := "faiss", target_type := "tables",
    target_ids := [1], index_path := some "fp", vector_count := 1,
    is_built := true, build_progress := 100, status := "ready",
    error_message := none }

/-- Store with a glossary term that strictly contains the query. -/
def msC5a : MetaStore :=
  { tables := [],
    dict_entries := [{ id := 1, project_id := 1, term := "customer_id",
                       definition := "key", category := "",
                       aliases := [] }] }

/-- Store with a table whose name is strictly contained in the query. -/
def msC5b : MetaStore :=
  { tables := [{ id := 1, project_id := 1, table_name := "customers",
                 description := "", columns := [] }],
    dict_entries := [] }

/-- Metadata record of the stored sparse row used for the `top_k = 0`
counterexample. -/
def metaC6 : RawResult :=
  { typ := "table", id := 1, name := "customers", score := 0,
    search_method := "", source := "table_info" }

/-- Environment with one persisted sparse index whose single row has
cosine similarity 0.5 with every query. -/
def envC6 : Env :=
  { metastore := emptyMeta, models := [], encode := fun _ => [],
    normalize := fun v => v, tfidfSim := fun _ _ => 1/2,
    extractPairs := fun _ _ => [],
    files := fun p => if p = "tp" then some (.tfidf [(metaC6, [1])]) else none,
    path_exists := fun _ => false, model_loads := fun _ => false,
    encode_ok := true, fit_ok := true, write_ok := true }

/-- Ready sparse descriptor pointing at the persisted index of `envC6`. -/
def idxC6 : IndexRec :=
  { id := 1, project_id := 1, embedding_model_id := none,
    index_name := "kw", index_type := "tfidf", target_type := "tables",
    target_ids := [1], index_path := some "tp", vector_count := 1,
    is_built := true, build_progress := 100, status := "ready",
    error_message := none }

/-- Descriptor table for the `top_k = 0` counterexample. -/
def stC6 : List IndexRec := [idxC6]

/-- A descriptor still building (not yet built), used to witness that
search returns `[]` on it. -/
def idxC6b : IndexRec :=
  { id := 2, project_id := 1, embedding_model_id := none,
    index_name := "kw2", index_type := "tfidf", target_type := "tables",
    target_ids := [1], index_path := none, vector_count := 0,
    is_built := false, build_progress := 10, status := "building",
    error_message := none }

/-- Pre-existing sparse descriptor row for the empty-collection build. -/
def idxC8 : IndexRec :=
  { id := 1, project_id := 1, embedding_model_id := none,
    index_name := "i8", index_type := "tfidf", target_type := "tables",
    target_ids := [1], index_path := none, vector_count := 0,
    is_built := false, build_progress := 0, status := "building",
    error_message := none }

/-- Pre-existing dense descriptor row for the empty-collection build. -/
def idxC8f : IndexRec :=
  { id := 2, project_id := 1, embedding_model_id := some 1,
    index_name := "i8f", index_type := "faiss", target_type := "tables",
    target_ids := [1], index_path := none, vector_count := 0,
    is_built := false, build_progress := 0, status := "building",
    error_message := none }

/-- Descriptor table for the empty-collection builds. -/
def stC8 : List IndexRec := [idxC8, idxC8f]

/-- Environment for the empty-collection builds: the model is ready but the
metadata store has no rows, so text collection yields `[]`. -/
def envC8 : Env :=
  { metastore := emptyMeta,
    models := [{ id := 1, project_id := 1, model_name := "m",
                 is_downloaded := true, status := "ready",
                 model_path := some "mp" }],
    encode := fun _ => [1], normalize := fun v => v,
    tfidfSim := fun _ _ => 0, extractPairs := fun _ _ => [],
    files := fun _ => none, path_exists := fun p => p = "mp",
    model_loads := fun _ => true,
    encode_ok := true, fit_ok := true, write_ok := true }

/-- Environment for the successful builds: one table to index, a ready
model, and every fallible step succeeding. -/
def envC9 : Env :=
  { metastore :=
      { tables := [{ id := 1, project_id := 1, table_name := "orders",
                     description := "", columns := [("total", "num")] }],
        dict_entries := [] },
    models := [{ id := 1, project_id := 1, model_name := "m",
                 is_downloaded := true, status := "ready",
                 model_path := some "mp" }],
    encode := fun _ => [1, 0], normalize := fun v => v,
    tfidfSim := fun _ _ => 0, extractPairs := fun _ _ => [],
    files := fun _ => none, path_exists := fun p => p = "mp",
    model_loads := fun _ => true,
    encode_ok := true, fit_ok := true, write_ok := true }

/-- Pre-existing dense descriptor row for the successful build. -/
def idxC9 : IndexRec :=
  { id := 1, project_id := 1, embedding_model_id := some 1,
    index_name := "i9", index_type := "faiss", target_type := "tables",
    target_ids := [1], index_path := none, vector_count := 0,
    is_built := false, build_progress := 0, status := "building",
    error_message := none }

/-- Pre-existing sparse descriptor row for the successful build. -/
def idxC9t : IndexRec :=
  { id := 2, project_id := 1, embedding_model_id := none,
    index_name := "i9t", index_type := "tfidf", target_type := "tables",
    target_ids := [1], index_path := none, vector_count := 0,
    is_built := false, build_progress := 0, status := "building",
    error_message := none }

/-- Descriptor table for the successful builds. -/
def stC9 : List IndexRec := [idxC9, idxC9t]

/-- A weights map that does not mention the `semantic` strategy. -/
def wC10 : List (String × ℚ) := [("exact", 1)]

/-- Environment for the fuzzy score witness: one table, and
`process.extract` returning the single pair `("customers", 85)`. -/
def envC4f : Env :=
  { metastore := msC5b, models := [], encode := fun _ => [],
    normalize := fun v => v, tfidfSim := fun _ _ => 0,
    extractPairs := fun _ _ => [("customers", 85)],
    files := fun _ => none, path_exists := fun _ => false,
    model_loads := fun _ => false,
    encode_ok := true, fit_ok := true, write_ok := true }

/-! # Theorems -/

/-! ## Stable sort lemmas -/

theorem insertDescBy_perm (f : α → ℚ) (x : α) (l : List α) :
    (insertDescBy f x l).Perm (x :: l) := by
  induction l with
  | nil => simp [insertDescBy]
  | cons y ys ih =>
    simp only [insertDescBy]
    split
    · exact List.Perm.refl _
    · exact ((ih.cons y).trans (List.Perm.swap x y ys))

theorem sortDescBy_perm (f : α → ℚ) (l : List α) :
    (sortDescBy f l).Perm l := by
  induction l with
  | nil => simp [sortDescBy]
  | cons x xs ih =>
    exact (insertDescBy_perm f x (sortDescBy f xs)).trans (ih.cons x)

theorem mem_sortDescBy {f : α → ℚ} {l : List α} {a : α} :
    a ∈ sortDescBy f l ↔ a ∈ l :=
  (sortDescBy_perm f l).mem_iff

theorem pairwise_insertDescBy (f : α → ℚ) (x : α) {l : List α}
    (h : l.Pairwise (fun a b => f b ≤ f a)) :
    (insertDescBy f x l).Pairwise (fun a b => f b ≤ f a) := by
  induction l with
  | nil => simp [insertDescBy]
  | cons y ys ih =>
    rcases List.pairwise_cons.mp h with ⟨hy, hys⟩
    simp only [insertDescBy]
    split
    · refine List.pairwise_cons.mpr ⟨?_, h⟩
      intro b hb
      rcases List.mem_cons.mp hb with rfl | hb
      · assumption
      · exact (hy b hb).trans (by assumption)
    · refine List.pairwise_cons.mpr ⟨?_, ih hys⟩
      intro b hb
      rcases List.mem_cons.mp ((insertDescBy_perm f x ys).mem_iff.mp hb) with
        rfl | hb
      · exact le_of_lt (lt_of_not_ge (by assumption))
      · exact hy b hb

theorem pairwise_sortDescBy (f : α → ℚ) (l : List α) :
    (sortDescBy f l).Pairwise (fun a b => f b ≤ f a) := by
  induction l with
  | nil => simp [sortDescBy]
  | cons x xs ih => exact pairwise_insertDescBy f x ih

/-! ## Grouping-loop lemmas -/

theorem applyUpd_item_id (r : RawResult) (ws : ℚ) (m : String)
    (e : FusedRec) : (applyUpd r ws m e).item_id = e.item_id := by
  unfold applyUpd; split <;> rfl

theorem updateExisting_map (c : List FusedRec) (iid : String) (r : RawResult)
    (ws : ℚ) (m : String) :
    (updateExisting c iid r ws m).map (fun f => f.item_id) =
      c.map (fun f => f.item_id) := by
  induction c with
  | nil => rfl
  | cons e rest ih =>
    by_cases h : e.item_id = iid
    · simp [updateExisting, h, applyUpd_item_id]
    · simp [updateExisting, h, ih]

theorem mem_updateExisting {c : List FusedRec} {iid : String}
    {r : RawResult} {ws : ℚ} {m : String} {f : FusedRec}
    (hn : (c.map (fun f => f.item_id)).Nodup)
    (hf : f ∈ updateExisting c iid r ws m) :
    (f ∈ c ∧ f.item_id ≠ iid) ∨
      ∃ e, e ∈ c ∧ e.item_id = iid ∧ f = applyUpd r ws m e := by
  induction c with
  | nil => simp [updateExisting] at hf
  | cons e rest ih =>
    simp only [List.map_cons, List.nodup_cons] at hn
    obtain ⟨hne, hnr⟩ := hn
    by_cases h : e.item_id = iid
    · simp only [updateExisting, if_pos h] at hf
      rcases List.mem_cons.mp hf with rfl | hf
      · exact Or.inr ⟨e, List.mem_cons_self e rest, h, rfl⟩
      · refine Or.inl ⟨List.mem_cons_of_mem e hf, fun hfi => hne ?_⟩
        rw [h, ← hfi]
        exact List.mem_map_of_mem (fun f => f.item_id) hf
    · simp only [updateExisting, if_neg h] at hf
      rcases List.mem_cons.mp hf with rfl | hf
      · exact Or.inl ⟨List.mem_cons_self f rest, h⟩
      · rcases ih hnr hf with ⟨h1, h2⟩ | ⟨e', he', hei, heq⟩
        · exact Or.inl ⟨List.mem_cons_of_mem e h1, h2⟩
        · exact Or.inr ⟨e', List.mem_cons_of_mem e he', hei, heq⟩

theorem recProp_append {w : List (String × ℚ)}
    {l : List (String × RawResult)} {p : String × RawResult} {f : FusedRec}
    (h : RecProp w l f) (hne : itemId p.2 ≠ f.item_id) :
    RecProp w (l ++ [p]) f := by
  obtain ⟨⟨q, hq, hq1, hq2⟩, hmax, hmeth⟩ := h
  refine ⟨⟨q, List.mem_append_left _ hq, hq1, hq2⟩, ?_, ?_⟩
  · intro q' hq' hid
    rcases List.mem_append.mp hq' with hq' | hq'
    · exact hmax q' hq' hid
    · rcases List.mem_singleton.mp hq' with rfl
      exact absurd hid hne
  · intro m hm
    obtain ⟨q', hq', hm1, hm2⟩ := hmeth m hm
    exact ⟨q', List.mem_append_left _ hq', hm1, hm2⟩

theorem fuseStep_inv {w : List (String × ℚ)}
    {l : List (String × RawResult)} {S : List FusedRec × List String}
    {p : String × RawResult} (h : FuseInv w l S) :
    FuseInv w (l ++ [p]) (fuseStep w S p) := by
  obtain ⟨hseen, hnd, hcov, hrec⟩ := h
  by_cases hmem : itemId p.2 ∈ S.2
  · simp only [fuseStep, if_pos hmem]
    refine ⟨?_, ?_, ?_, ?_⟩
    · rw [updateExisting_map]; exact hseen
    · rw [updateExisting_map]; exact hnd
    · intro q hq
      rcases List.mem_append.mp hq with hq | hq
      · exact hcov q hq
      · rcases List.mem_singleton.mp hq with rfl
        exact hmem
    · intro f hf
      rcases mem_updateExisting hnd hf with ⟨hfc, hfne⟩ | ⟨e, hec, heid, rfl⟩
      · exact recProp_append (hrec f hfc) (fun hh => hfne hh.symm)
      · obtain ⟨⟨q, hq, hq1, hq2⟩, hmax, hmeth⟩ := hrec e hec
        by_cases hgt : wsOf w p > e.weighted_score
        · rw [applyUpd, if_pos hgt]
          refine ⟨⟨p, List.mem_append_right _ (List.mem_singleton_self p),
            heid.symm, rfl⟩, ?_, ?_⟩
          · intro q' hq' hid
            rcases List.mem_append.mp hq' with hq' | hq'
            · exact le_of_lt (lt_of_le_of_lt (hmax q' hq' (by simpa using hid)) hgt)
            · rcases List.mem_singleton.mp hq' with rfl
              exact le_refl _
          · intro m hm
            simp only at hm
            by_cases hmm : p.1 ∈ e.search_methods
            · rw [if_pos hmm] at hm
              obtain ⟨q', hq', h1, h2⟩ := hmeth m hm
              exact ⟨q', List.mem_append_left _ hq', h1, by simp [h2, heid]⟩
            · rw [if_neg hmm] at hm
              rcases List.mem_append.mp hm with hm | hm
              · obtain ⟨q', hq', h1, h2⟩ := hmeth m hm
                exact ⟨q', List.mem_append_left _ hq', h1, by simp [h2, heid]⟩
              · rcases List.mem_singleton.mp hm with rfl
                exact ⟨p, List.mem_append_right _ (List.mem_singleton_self p),
                  rfl, heid.symm⟩
        · rw [applyUpd, if_neg hgt]
          refine ⟨⟨q, List.mem_append_left _ hq, hq1, hq2⟩, ?_, ?_⟩
          · intro q' hq' hid
            rcases List.mem_append.mp hq' with hq' | hq'
            · exact hmax q' hq' hid
            · rcases List.mem_singleton.mp hq' with rfl
              exact le_of_not_gt hgt
          · intro m hm
            obtain ⟨q', hq', h1, h2⟩ := hmeth m hm
            exact ⟨q', List.mem_append_left _ hq', h1, h2⟩
  · simp only [fuseStep, if_neg hmem]
    refine ⟨?_, ?_, ?_, ?_⟩
    · simp [hseen]
    · rw [List.map_append]
      refine List.Nodup.append hnd (by simp) ?_
      intro a ha hb
      simp only [List.map_cons, List.map_nil, List.mem_singleton] at hb
      subst hb
      rw [← hseen] at ha
      exact hmem ha
    · intro q hq
      rcases List.mem_append.mp hq with hq | hq
      · exact List.mem_append_left _ (hcov q hq)
      · rcases List.mem_singleton.mp hq with rfl
        simp
    · intro f hf
      rcases List.mem_append.mp hf with hf | hf
      · refine recProp_append (hrec f hf) ?_
        intro hh
        apply hmem
        rw [hh, hseen]
        exact List.mem_map_of_mem (fun f => f.item_id) hf
      · rcases List.mem_singleton.mp hf with rfl
        refine ⟨⟨p, List.mem_append_right _ (List.mem_singleton_self p),
          rfl, rfl⟩, ?_, ?_⟩
        · intro q' hq' hid
          rcases List.mem_append.mp hq' with hq' | hq'
          · exact absurd (hid ▸ hcov q' hq') (by simpa using hmem)
          · rcases List.mem_singleton.mp hq' with rfl
            exact le_refl _
        · intro m hm
          rcases List.mem_singleton.mp hm with rfl
          exact ⟨p, List.mem_append_right _ (List.mem_singleton_self p),
            rfl, rfl⟩

theorem fuseAll_inv (w : List (String × ℚ)) (l : List (String × RawResult)) :
    FuseInv w l (fuseAll w l) := by
  induction l using List.reverseRecOn with
  | nil =>
    exact ⟨rfl, List.nodup_nil, by simp, by simp [fuseAll]⟩
  | append_singleton l p ih =>
    have he : fuseAll w (l ++ [p]) = fuseStep w (fuseAll w l) p := by
      simp [fuseAll, List.foldl_append]
    rw [he]
    exact fuseStep_inv ih

/-! ## Claim C1 -/

/-- C1 (counterexample): the exact strategy produces a candidate with the
same element identity as a higher-weighted semantic candidate, yet the
fused record's contributing strategies are `["semantic"]` only — the
lower-scoring duplicate is dropped without being recorded, so the
contributing set is not the union across the group. -/
theorem C1_counterexample :
    itemId rExC1 = itemId rSemC1 ∧
    (combine_and_rank_results {} arC1).map (fun r => r.search_methods) =
      [["semantic"]] := by
  constructor
  · decide
  · norm_num +decide [combine_and_rank_results, arC1, rSemC1, rExC1, pairs,
      combineGroups, fuseAll, fuseStep, itemId, wsOf, weightOf,
      defaultWeights, updateExisting, applyUpd, sortDesc, sortDescBy,
      insertDescBy, finalize, roundQ3, List.find?, List.enum]

/-- C1 (amended): every fused record keeps the maximum `weighted_score`
over its element-identity group (attained by a group member and dominating
all of them), and its `search_methods` list only contains strategies that
produced a candidate of the group — but it is not in general the union of
all such strategies: a later duplicate whose weighted score does not
exceed the running maximum is discarded without being recorded, as the
counterexample shows. -/
theorem C1_amended (w : List (String × ℚ)) (ar : AllResults) (f : FusedRec)
    (hf : f ∈ combineGroups w ar) :
    (∃ p ∈ pairs ar, itemId p.2 = f.item_id ∧ wsOf w p = f.weighted_score) ∧
    (∀ p ∈ pairs ar, itemId p.2 = f.item_id → wsOf w p ≤ f.weighted_score) ∧
    (∀ m ∈ f.search_methods, ∃ p ∈ pairs ar, p.1 = m ∧
      itemId p.2 = f.item_id) :=
  (fuseAll_inv w (pairs ar)).2.2.2 f hf

/-- C1 (witness): the amended theorem applied to the concrete candidate
map of the counterexample and its surviving fused record. -/
theorem C1_amended_witness :
    (∃ p ∈ pairs arC1, itemId p.2 = fC1.item_id ∧
      wsOf defaultWeights p = fC1.weighted_score) ∧
    (∀ p ∈ pairs arC1, itemId p.2 = fC1.item_id →
      wsOf defaultWeights p ≤ fC1.weighted_score) ∧
    (∀ m ∈ fC1.search_methods, ∃ p ∈ pairs arC1, p.1 = m ∧
      itemId p.2 = fC1.item_id) :=
  C1_amended defaultWeights arC1 fC1 (by
    norm_num +decide [combineGroups, fuseAll, fuseStep, pairs, arC1, rSemC1,
      rExC1, itemId, wsOf, weightOf, defaultWeights, updateExisting,
      applyUpd, fC1, List.find?])

/-! ## Claim C2 -/

/-- C2 (counterexample): two fused groups tie at weighted score 0.8; the
output keeps their discovery order `table_2, table_1` although
`table_1` precedes `table_2` in lexicographic order — ties are not broken
by identity-key lexicographic order. -/
theorem C2_counterexample :
    (combine_and_rank_results {} arC2).map (fun r => itemId r.res) =
      ["table_2", "table_1"] ∧
    "table_1".toList < "table_2".toList := by
  constructor
  · norm_num +decide [combine_and_rank_results, arC2, rAC2, rBC2, pairs,
      combineGroups, fuseAll, fuseStep, itemId, wsOf, weightOf,
      defaultWeights, updateExisting, applyUpd, sortDesc, sortDescBy,
      insertDescBy, finalize, roundQ3, List.find?, List.enum]
  · decide

/-- C2 (amended): the fused groups are sorted by `weighted_score`
descending with a stable sort (a permutation of the grouped records), so
ties keep their first-discovery order — method iteration order
`semantic, keyword, fuzzy, exact`, then candidate order — rather than
identity-key lexicographic order; the output is still a deterministic
function of the input candidate map, and the final ranking is exactly
this sorted list ranked, rounded and truncated. -/
theorem C2_amended (cfg : FusionConfig) (ar : AllResults) :
    (sortDesc (combineGroups (cfg.method_weights.getD defaultWeights)
        ar)).Pairwise
      (fun a b => b.weighted_score ≤ a.weighted_score) ∧
    (sortDesc (combineGroups (cfg.method_weights.getD defaultWeights)
        ar)).Perm
      (combineGroups (cfg.method_weights.getD defaultWeights) ar) ∧
    combine_and_rank_results cfg ar =
      (finalize (sortDesc (combineGroups
        (cfg.method_weights.getD defaultWeights) ar))).take
        (cfg.max_combined_results.getD 20) :=
  ⟨pairwise_sortDescBy _ _, sortDescBy_perm _ _, rfl⟩

/-! ## Claim C10 -/

/-- C10: a strategy name absent from the weights map gets the fixed
default weight 0.5, and a candidate of such a strategy still enters the
fused group list, with `weighted_score = raw_score * 0.5`. -/
theorem C10_default_weight :
    (∀ (w : List (String × ℚ)) (m : String), (∀ p ∈ w, p.1 ≠ m) →
      weightOf w m = 1/2) ∧
    (∀ (w : List (String × ℚ)) (r : RawResult),
      (∀ p ∈ w, p.1 ≠ "semantic") →
      combineGroups w
        { semantic := [r], keyword := [], fuzzy := [], exact := [] } =
        [{ res := r, item_id := itemId r, weighted_score := r.score * (1/2),
           search_methods := ["semantic"] }]) := by
  have h1 : ∀ (w : List (String × ℚ)) (m : String), (∀ p ∈ w, p.1 ≠ m) →
      weightOf w m = 1/2 := by
    intro w m hw
    unfold weightOf
    have hn : w.find? (fun p => p.1 = m) = none := by
      rw [List.find?_eq_none]
      intro p hp
      simpa using hw p hp
    rw [hn]
  refine ⟨h1, ?_⟩
  intro w r hw
  simp [combineGroups, pairs, fuseAll, fuseStep, wsOf, h1 w "semantic" hw]

/-- C10 (witness): with the weights map `[("exact", 1)]`, the `semantic`
strategy is absent, gets weight 0.5, and its candidate survives fusion
with half its raw score. -/
theorem C10_default_weight_witness :
    weightOf wC10 "semantic" = 1/2 ∧
    combineGroups wC10
      { semantic := [rSemC1], keyword := [], fuzzy := [], exact := [] } =
      [{ res := rSemC1, item_id := itemId rSemC1,
         weighted_score := rSemC1.score * (1/2),
         search_methods := ["semantic"] }] :=
  ⟨C10_default_weight.1 wC10 "semantic" (by decide),
   C10_default_weight.2 wC10 rSemC1 (by decide)⟩

/-! ## Claim C3 -/

/-- C3 (counterexample): with descriptor 1 in state `building` (a build in
flight), a rebuild request is answered `accepted` (HTTP 202), not a
conflict — no conflict outcome exists — and the rebuild task changes the
descriptor's state (here the rerun build finds no source texts and commits
`error` with an error message). -/
theorem C3_counterexample :
    idxC3.status = "building" ∧
    (rebuild_indexes env0 stC3 1 []).1 = .accepted 1 ∧
    ((rebuild_indexes env0 stC3 1 []).2.find? (fun i => i.id = 1)).map
      (fun i => (i.status, i.is_built, i.error_message)) =
      some ("error", false, some "No texts found for indexing") := by
  refine ⟨rfl, ?_, ?_⟩ <;>
  norm_num +decide [rebuild_indexes, selectRebuild, rebuild_task,
    rebuild_one, create_tfidf_index, findOrCreateIndex, findByName,
    collect_texts_for_indexing, markError, setRec, freshId, stC3, idxC3,
    env0, emptyMeta, List.find?]

/-- C3 (amended): `rebuild_indexes` never rejects with a conflict: whenever
the id selection is non-empty it immediately answers `accepted` with the
selection count, regardless of any descriptor's status (`building`
included), and the background task re-runs the builds, changing the
in-flight descriptor's state rather than leaving it untouched (on the
counterexample state the descriptor ends `error` instead of its original
`building`). -/
theorem C3_amended :
    (∀ (env : Env) (st : List IndexRec) (pid : Nat) (ids : List Nat),
      selectRebuild st pid ids ≠ [] →
      (rebuild_indexes env st pid ids).1 =
        .accepted (selectRebuild st pid ids).length) ∧
    (∀ (env : Env) (st : List IndexRec) (pid : Nat) (ids : List Nat),
      selectRebuild st pid ids = [] →
      rebuild_indexes env st pid ids = (.notFound, st)) ∧
    ((rebuild_indexes env0 stC3 1 []).2.find? (fun i => i.id = 1)).map
      (fun i => i.status) = some "error" := by
  refine ⟨?_, ?_, ?_⟩
  · intro env st pid ids h
    simp [rebuild_indexes, h]
  · intro env st pid ids h
    simp [rebuild_indexes, h]
  · norm_num +decide [rebuild_indexes, selectRebuild, rebuild_task,
      rebuild_one, create_tfidf_index, findOrCreateIndex, findByName,
      collect_texts_for_indexing, markError, setRec, freshId, stC3, idxC3,
      env0, emptyMeta, List.find?]

/-- C3 (witness): the amended theorem's two conditional parts applied to
the counterexample state (non-empty selection) and to an empty store
(empty selection). -/
theorem C3_amended_witness :
    (rebuild_indexes env0 stC3 1 []).1 =
      .accepted (selectRebuild stC3 1 []).length ∧
    rebuild_indexes env0 [] 1 [] = (.notFound, []) :=
  ⟨C3_amended.1 env0 stC3 1 [] (by decide),
   C3_amended.2.1 env0 [] 1 [] (by decide)⟩

/-! ## Claim C6 -/

/-- C6 (counterexample): a ready, built sparse index searched with
`top_k = 0` returns a non-empty result (the slice `argsort()[-0:]` selects
every position), refuting "empty whenever `top_k ≤ 0`". -/
theorem C6_counterexample :
    idxC6.is_built = true ∧ idxC6.status = "ready" ∧
    (search_index envC6 stC6 1 "q" 0).map (fun r => r.score) = [1/2] := by
  refine ⟨rfl, rfl, ?_⟩
  norm_num +decide [search_index, search_tfidf_index, stC6, idxC6, envC6,
    metaC6, argsortAsc, sortAscBy, insertAscBy, pySliceFrom, List.find?,
    List.range_succ, List.range_zero, Option.bind, List.getD,
    List.getElem?_cons_zero, List.filterMap_cons]

/-- C6 (amended): the guard of the per-index search is `is_built` (plus
exception swallowing), not `status` or `top_k`: a missing or not-yet-built
descriptor always yields `[]`, and a missing/unreadable index file also
yields `[]` for both index kinds; but nothing guards `top_k ≤ 0`, which on
a sparse index can return every positive-similarity row (counterexample),
and `status` is never consulted. -/
theorem C6_amended :
    (∀ (env : Env) (st : List IndexRec) (iid : Nat) (q : String) (k : Int),
      st.find? (fun i => i.id = iid) = none →
      search_index env st iid q k = []) ∧
    (∀ (env : Env) (st : List IndexRec) (iid : Nat) (q : String) (k : Int)
      (i : IndexRec), st.find? (fun j => j.id = iid) = some i →
      i.is_built = false → search_index env st iid q k = []) ∧
    (∀ (env : Env) (idx : IndexRec) (q : String) (k : Int),
      idx.index_path.bind env.files = none →
      search_faiss_index env idx q k = [] ∧
      search_tfidf_index env idx q k = []) := by
  refine ⟨?_, ?_, ?_⟩
  · intro env st iid q k h
    simp [search_index, h]
  · intro env st iid q k i h hb
    simp [search_index, h, hb]
  · intro env idx q k h
    constructor
    · unfold search_faiss_index
      rw [h]
    · unfold search_tfidf_index
      rw [h]

/-- C6 (witness): the amended theorem applied to an empty descriptor
table, to a building (not built) descriptor, and to a descriptor with no
persisted file. -/
theorem C6_amended_witness :
    search_index env0 [] 1 "q" 5 = [] ∧
    search_index envC6 [idxC6b] 2 "q" 5 = [] ∧
    (search_faiss_index env0 idxC6b "q" 5 = [] ∧
     search_tfidf_index env0 idxC6b "q" 5 = []) :=
  ⟨C6_amended.1 env0 [] 1 "q" 5 rfl,
   C6_amended.2.1 envC6 [idxC6b] 2 "q" 5 idxC6b (by decide) rfl,
   C6_amended.2.2 env0 idxC6b "q" 5 rfl⟩

/-! ## Claims C8 and C9: build lemmas -/

theorem find?_id_setRec (st : List IndexRec) (rid : Nat)
    (f : IndexRec → IndexRec) (hid : ∀ i, (f i).id = i.id) :
    (setRec st rid f).find? (fun i => i.id = rid) =
      (st.find? (fun i => i.id = rid)).map
        (fun i => if i.id = rid then f i else i) := by
  induction st with
  | nil => rfl
  | cons a rest ih =>
    by_cases h : a.id = rid
    · have h2 : (if a.id = rid then f a else a).id = rid := by
        rw [if_pos h, hid a, h]
      simp only [setRec, List.map_cons]
      rw [List.find?_cons_of_pos _ (by simpa using h2),
        List.find?_cons_of_pos _ (by simpa using h)]
      rfl
    · have h2 : ¬ (if a.id = rid then f a else a).id = rid := by
        rw [if_neg h]; exact h
      simp only [setRec, List.map_cons]
      rw [List.find?_cons_of_neg _ (by simpa using h2),
        List.find?_cons_of_neg _ (by simpa using h)]
      exact ih

theorem findOrCreateIndex_found {st : List IndexRec} {pid : Nat}
    {name : String} {it tt : String} {tids : List Nat} {mid : Option Nat}
    {r : IndexRec} (hr : findByName st pid name = some r) :
    findOrCreateIndex st pid name it tt tids mid = (r.id, st) := by
  unfold findOrCreateIndex
  rw [hr]

/-- C8: a build (dense or sparse) over an empty collected-text list fails:
the outcome is the error "No texts found for indexing", and the descriptor
row is committed with `status = 'error'` and that human-readable message,
every other field (in particular `is_built` and `vector_count`) left as it
was — it is never marked built or `ready` by this build. -/
theorem C8_empty_build (env : Env) (st : List IndexRec) (pid : Nat)
    (mid : Nat) (name nameF tt : String) (tids : List Nat)
    (r rf : IndexRec) (m : EmbModel) (mp : String)
    (hr : findByName st pid name = some r)
    (hrid : st.find? (fun i => i.id = r.id) = some r)
    (htexts : (collect_texts_for_indexing env tt tids pid).1 = [])
    (hrf : findByName st pid nameF = some rf)
    (hrfid : st.find? (fun i => i.id = rf.id) = some rf)
    (hm : env.models.find? (fun x => x.id = mid) = some m)
    (hmok : m.is_downloaded = true ∧ m.status = "ready")
    (hmp : m.model_path = some mp)
    (hpe : env.path_exists mp = true) :
    ((create_tfidf_index env st pid name tt tids).1 =
       .err "No texts found for indexing" ∧
     (create_tfidf_index env st pid name tt tids).2.find?
        (fun i => i.id = r.id) =
       some { r with status := "error",
                     error_message := some "No texts found for indexing" }) ∧
    ((create_faiss_index env st pid (some mid) nameF tt tids).1 =
       .err "No texts found for indexing" ∧
     (create_faiss_index env st pid (some mid) nameF tt tids).2.find?
        (fun i => i.id = rf.id) =
       some { rf with status := "error",
                      error_message := some "No texts found for indexing" }) := by
  have ht : create_tfidf_index env st pid name tt tids =
      (.err "No texts found for indexing",
       markError st r.id "No texts found for indexing") := by
    unfold create_tfidf_index
    rw [findOrCreateIndex_found hr]
    simp [htexts]
  have hfa : create_faiss_index env st pid (some mid) nameF tt tids =
      (.err "No texts found for indexing",
       markError st rf.id "No texts found for indexing") := by
    unfold create_faiss_index
    simp [Option.bind, hm, hmok.1, hmok.2, hmp, hpe,
      findOrCreateIndex_found hrf, htexts]
  have hme : ∀ (s : List IndexRec) (rid : Nat) (msg : String),
      (markError s rid msg).find? (fun i => i.id = rid) =
        (s.find? (fun i => i.id = rid)).map
          (fun i => if i.id = rid then
            { i with status := "error", error_message := some msg } else i) :=
    fun s rid msg => find?_id_setRec s rid _ (fun i => rfl)
  constructor
  · refine ⟨by rw [ht], ?_⟩
    rw [ht]
    simp only [markError] at hme ⊢
    rw [hme, hrid]
    simp
  · refine ⟨by rw [hfa], ?_⟩
    rw [hfa]
    simp only [markError] at hme ⊢
    rw [hme, hrfid]
    simp

/-- C8 (witness): both builds applied to a pre-existing descriptor row and
a project whose metadata store is empty, so the collected text list is
empty. -/
theorem C8_empty_build_witness :
    ((create_tfidf_index envC8 stC8 1 "i8" "tables" [1]).1 =
       .err "No texts found for indexing" ∧
     (create_tfidf_index envC8 stC8 1 "i8" "tables" [1]).2.find?
        (fun i => i.id = idxC8.id) =
       some { idxC8 with status := "error",
                         error_message := some "No texts found for indexing" }) ∧
    ((create_faiss_index envC8 stC8 1 (some 1) "i8f" "tables" [1]).1 =
       .err "No texts found for indexing" ∧
     (create_faiss_index envC8 stC8 1 (some 1) "i8f" "tables" [1]).2.find?
        (fun i => i.id = idxC8f.id) =
       some { idxC8f with status := "error",
                          error_message := some "No texts found for indexing" }) :=
  C8_empty_build envC8 stC8 1 1 "i8" "i8f" "tables" [1] idxC8 idxC8f
    { id := 1, project_id := 1, model_name := "m", is_downloaded := true,
      status := "ready", model_path := some "mp" } "mp"
    (by decide) (by decide) (by decide) (by decide) (by decide) (by decide)
    (by decide) (by decide) (by decide)

/-- C9: a successful build (dense or sparse) over a non-empty collected
text list commits the descriptor with `vector_count` equal to the number
of collected texts, `build_progress = 100` and `status = 'ready'`, and
reports the same count in its outcome. -/
theorem C9_success_build (env : Env) (st : List IndexRec) (pid : Nat)
    (mid : Nat) (name nameT tt : String) (tids : List Nat)
    (r rt : IndexRec) (m : EmbModel) (mp : String)
    (hr : findByName st pid name = some r)
    (hrid : st.find? (fun i => i.id = r.id) = some r)
    (hrt : findByName st pid nameT = some rt)
    (hrtid : st.find? (fun i => i.id = rt.id) = some rt)
    (hm : env.models.find? (fun x => x.id = mid) = some m)
    (hmok : m.is_downloaded = true ∧ m.status = "ready")
    (hmp : m.model_path = some mp)
    (hpe : env.path_exists mp = true)
    (htexts : (collect_texts_for_indexing env tt tids pid).1 ≠ [])
    (hload : load_model env mid = true)
    (henc : env.encode_ok = true)
    (hwr : env.write_ok = true)
    (hfit : env.fit_ok = true) :
    ((create_faiss_index env st pid (some mid) name tt tids).1 =
       .ok r.id (collect_texts_for_indexing env tt tids pid).1.length ∧
     (create_faiss_index env st pid (some mid) name tt tids).2.find?
        (fun i => i.id = r.id) =
       some { r with
         index_path := some ("faiss_" ++ toString r.id ++ ".index"),
         vector_count := (collect_texts_for_indexing env tt tids pid).1.length,
         is_built := true, build_progress := 100, status := "ready" }) ∧
    ((create_tfidf_index env st pid nameT tt tids).1 =
       .ok rt.id (collect_texts_for_indexing env tt tids pid).1.length ∧
     (create_tfidf_index env st pid nameT tt tids).2.find?
        (fun i => i.id = rt.id) =
       some { rt with
         index_path := some ("tfidf_" ++ toString rt.id ++ ".pkl"),
         vector_count := (collect_texts_for_indexing env tt tids pid).1.length,
         is_built := true, build_progress := 100, status := "ready" }) := by
  have hms : ∀ (s : List IndexRec) (rid : Nat) (path : String) (n : Nat),
      (setRec s rid (markReady path n)).find? (fun i => i.id = rid) =
        (s.find? (fun i => i.id = rid)).map
          (fun i => if i.id = rid then markReady path n i else i) :=
    fun s rid path n => find?_id_setRec s rid _ (fun i => rfl)
  have hfa : create_faiss_index env st pid (some mid) name tt tids =
      (.ok r.id (collect_texts_for_indexing env tt tids pid).1.length,
       setRec st r.id (markReady ("faiss_" ++ toString r.id ++ ".index")
         (collect_texts_for_indexing env tt tids pid).1.length)) := by
    unfold create_faiss_index
    simp [Option.bind, hm, hmok.1, hmok.2, hmp, hpe,
      findOrCreateIndex_found hr, htexts, hload, henc, hwr]
  have hti : create_tfidf_index env st pid nameT tt tids =
      (.ok rt.id (collect_texts_for_indexing env tt tids pid).1.length,
       setRec st rt.id (markReady ("tfidf_" ++ toString rt.id ++ ".pkl")
         (collect_texts_for_indexing env tt tids pid).1.length)) := by
    unfold create_tfidf_index
    simp [findOrCreateIndex_found hrt, htexts, hfit, hwr]
  constructor
  · refine ⟨by rw [hfa], ?_⟩
    rw [hfa]
    simp only
    rw [hms, hrid]
    simp [markReady]
  · refine ⟨by rw [hti], ?_⟩
    rw [hti]
    simp only
    rw [hms, hrtid]
    simp [markReady]

/-- C9 (witness): both builds over a project with one table to index and
every fallible step succeeding: one text is collected, and the committed
descriptors read `vector_count = 1`, `build_progress = 100`,
`status = 'ready'`. -/
theorem C9_success_build_witness :
    ((create_faiss_index envC9 stC9 1 (some 1) "i9" "tables" [1]).1 =
       .ok idxC9.id (collect_texts_for_indexing envC9 "tables" [1] 1).1.length ∧
     (create_faiss_index envC9 stC9 1 (some 1) "i9" "tables" [1]).2.find?
        (fun i => i.id = idxC9.id) =
       some { idxC9 with
         index_path := some ("faiss_" ++ toString idxC9.id ++ ".index"),
         vector_count :=
           (collect_texts_for_indexing envC9 "tables" [1] 1).1.length,
         is_built := true, build_progress := 100, status := "ready" }) ∧
    ((create_tfidf_index envC9 stC9 1 "i9t" "tables" [1]).1 =
       .ok idxC9t.id (collect_texts_for_indexing envC9 "tables" [1] 1).1.length ∧
     (create_tfidf_index envC9 stC9 1 "i9t" "tables" [1]).2.find?
        (fun i => i.id = idxC9t.id) =
       some { idxC9t with
         index_path := some ("tfidf_" ++ toString idxC9t.id ++ ".pkl"),
         vector_count :=
           (collect_texts_for_indexing envC9 "tables" [1] 1).1.length,
         is_built := true, build_progress := 100, status := "ready" }) :=
  C9_success_build envC9 stC9 1 1 "i9" "i9t" "tables" [1] idxC9 idxC9t
    { id := 1, project_id := 1, model_name := "m", is_downloaded := true,
      status := "ready", model_path := some "mp" } "mp"
    (by decide) (by decide) (by decide) (by decide) (by decide) (by decide)
    (by decide) (by decide) (by decide) (by decide) (by decide) (by decide)
    (by decide)

/-! ## Claims C4 and C5: score lemmas -/

theorem sumSq_nonneg (v : List ℚ) : 0 ≤ sumSq v := by
  unfold sumSq
  induction v with
  | nil => simp
  | cons x xs ih =>
    simp only [List.map_cons, List.sum_cons]
    exact add_nonneg (mul_self_nonneg x) ih

theorem abs_ip_le (a b : List ℚ) : |ip a b| ≤ (sumSq a + sumSq b) / 2 := by
  induction a generalizing b with
  | nil =>
    simp only [ip, List.zipWith_nil_left, List.sum_nil, abs_zero]
    have := sumSq_nonneg b
    have := sumSq_nonneg ([] : List ℚ)
    linarith
  | cons x xs ih =>
    cases b with
    | nil =>
      simp only [ip, List.zipWith_nil_right, List.sum_nil, abs_zero]
      have := sumSq_nonneg (x :: xs)
      have := sumSq_nonneg ([] : List ℚ)
      linarith
    | cons y ys =>
      have h1 : |x * y| ≤ (x * x + y * y) / 2 := by
        rw [abs_mul]
        nlinarith [sq_nonneg (|x| - |y|), abs_nonneg x, abs_nonneg y,
          abs_mul_abs_self x, abs_mul_abs_self y]
      have h2 : |ip (x :: xs) (y :: ys)| ≤ |x * y| + |ip xs ys| := by
        simp only [ip, List.zipWith_cons_cons, List.sum_cons]
        exact abs_add _ _
      have h3 := ih ys
      have h4 : sumSq (x :: xs) = x * x + sumSq xs := by
        simp [sumSq]
      have h5 : sumSq (y :: ys) = y * y + sumSq ys := by
        simp [sumSq]
      rw [h4, h5]
      linarith

theorem faiss_score_mem {env : Env} {idx : IndexRec} {q : String} {k : Int}
    {r : RawResult} (hr : r ∈ search_faiss_index env idx q k) :
    ∃ path entries, idx.index_path = some path ∧
      env.files path = some (.faiss entries) ∧
      ∃ e ∈ entries, r.score = ip (env.normalize (env.encode q)) e.2 := by
  unfold search_faiss_index at hr
  rcases hip : idx.index_path with _ | path
  · rw [hip] at hr; simp [Option.bind] at hr
  rw [hip] at hr
  simp only [Option.bind] at hr
  rcases hfs : env.files path with _ | c
  · rw [hfs] at hr; simp at hr
  rw [hfs] at hr
  cases c with
  | tfidf es => simp at hr
  | faiss entries =>
    refine ⟨path, entries, rfl, hfs, ?_⟩
    rcases hmid : idx.embedding_model_id with _ | mid
    · rw [hmid] at hr; simp at hr
    rw [hmid] at hr
    simp only [] at hr
    by_cases hl : load_model env mid = true
    · rw [if_pos hl] at hr
      rcases List.mem_filterMap.mp hr with ⟨p, hp, he⟩
      by_cases hb : (0 : Int) ≤ p.2 ∧ p.2 < Int.ofNat entries.length
      · rw [if_pos hb] at he
        rcases hg : entries.get? p.2.toNat with _ | e
        · rw [hg] at he; exact absurd he (by simp)
        · rw [hg] at he
          have hre : r = { e.1 with score := p.1 } :=
            (Option.some_inj.mp he).symm
          have hescore : r.score = p.1 := by rw [hre]
          have hpm : p ∈ (entries.map (fun e => e.2)).enum.map
              (fun pr => (ip (env.normalize (env.encode q)) pr.2,
                (pr.1 : Int))) := by
            unfold faissTopK at hp
            by_cases hk : k ≤ 0
            · rw [if_pos hk] at hp; simp at hp
            · rw [if_neg hk] at hp
              exact mem_sortDescBy.mp (List.mem_of_mem_take hp)
          rcases List.mem_map.mp hpm with ⟨pr, hpr, hpe⟩
          have hv : pr.2 ∈ entries.map (fun e => e.2) := by
            have h := List.mem_map_of_mem Prod.snd hpr
            rwa [List.enum_map_snd] at h
          rcases List.mem_map.mp hv with ⟨e', he', hve⟩
          refine ⟨e', he', ?_⟩
          rw [hescore, ← hpe, ← hve]
      · rw [if_neg hb] at he
        exact absurd he (by simp)
    · rw [if_neg hl] at hr; simp at hr

theorem exactSearchTables_mem {q : String} {ts : List Table} {r : RawResult} :
    r ∈ exactSearchTables q ts ↔ ∃ t ∈ ts, strIn q t.table_name ∧
      r = { typ := "table", id := t.id, name := t.table_name,
            table_name := t.table_name,
            score := if lc q = lc t.table_name then 1 else 4/5,
            search_method := "exact", source := "table_names" } := by
  constructor
  · intro h
    rcases List.mem_filterMap.mp h with ⟨t, ht, he⟩
    by_cases hc : strIn q t.table_name
    · rw [if_pos hc] at he
      exact ⟨t, ht, hc, (Option.some_inj.mp he).symm⟩
    · rw [if_neg hc] at he
      exact absurd he (by simp)
  · rintro ⟨t, ht, hc, rfl⟩
    exact List.mem_filterMap.mpr ⟨t, ht, by rw [if_pos hc]⟩

theorem exactSearchColumns_mem {q : String} {ts : List Table}
    {r : RawResult} :
    r ∈ exactSearchColumns q ts ↔ ∃ t ∈ ts, ∃ c ∈ t.columns, strIn q c.1 ∧
      r = { typ := "column", table_id := t.id, table_name := t.table_name,
            column_name := c.1,
            score := if lc q = lc c.1 then 1 else 4/5,
            search_method := "exact", source := "column_names" } := by
  constructor
  · intro h
    rcases List.mem_flatMap.mp h with ⟨t, ht, hin⟩
    rcases List.mem_filterMap.mp hin with ⟨c, hc, he⟩
    by_cases hs : strIn q c.1
    · rw [if_pos hs] at he
      exact ⟨t, ht, c, hc, hs, (Option.some_inj.mp he).symm⟩
    · rw [if_neg hs] at he
      exact absurd he (by simp)
  · rintro ⟨t, ht, c, hc, hs, rfl⟩
    exact List.mem_flatMap.mpr ⟨t, ht,
      List.mem_filterMap.mpr ⟨c, hc, by rw [if_pos hs]⟩⟩

theorem exactSearchDict_mem {q : String} {es : List DictEntry}
    {r : RawResult} :
    r ∈ exactSearchDict q es ↔ ∃ e ∈ es,
      (strIn q e.term ∧
        r = { typ := "dictionary", id := e.id, name := e.term,
              score := if lc q = lc e.term then 1 else 9/10,
              search_method := "exact", source := "dictionary_terms" }) ∨
      (¬ strIn q e.term ∧ e.definition ≠ "" ∧ strIn q e.definition ∧
        r = { typ := "dictionary", id := e.id, name := e.term, score := 7/10,
              search_method := "exact",
              source := "dictionary_definitions" }) ∨
      (∃ a ∈ e.aliases, strIn q a ∧
        r = { typ := "dictionary", id := e.id, name := e.term,
              matched_alias := some a,
              score := if lc q = lc a then 9/10 else 7/10,
              search_method := "exact", source := "dictionary_aliases" }) := by
  constructor
  · intro h
    rcases List.mem_flatMap.mp h with ⟨e, he, hin⟩
    refine ⟨e, he, ?_⟩
    rcases List.mem_append.mp hin with hin | hin
    · by_cases ht : strIn q e.term
      · rw [if_pos ht] at hin
        rcases List.mem_singleton.mp hin with rfl
        exact Or.inl ⟨ht, rfl⟩
      · rw [if_neg ht] at hin
        by_cases hd : e.definition ≠ "" ∧ strIn q e.definition
        · rw [if_pos hd] at hin
          rcases List.mem_singleton.mp hin with rfl
          exact Or.inr (Or.inl ⟨ht, hd.1, hd.2, rfl⟩)
        · rw [if_neg hd] at hin
          exact absurd hin (by simp)
    · rcases List.mem_filterMap.mp hin with ⟨a, ha, hea⟩
      by_cases hs : strIn q a
      · rw [if_pos hs] at hea
        exact Or.inr (Or.inr ⟨a, ha, hs, (Option.some_inj.mp hea).symm⟩)
      · rw [if_neg hs] at hea
        exact absurd hea (by simp)
  · rintro ⟨e, he, ⟨ht, rfl⟩ | ⟨ht, hd1, hd2, rfl⟩ | ⟨a, ha, hs, rfl⟩⟩
    · exact List.mem_flatMap.mpr ⟨e, he,
        List.mem_append_left _ (by rw [if_pos ht]; exact List.mem_singleton_self _)⟩
    · exact List.mem_flatMap.mpr ⟨e, he,
        List.mem_append_left _
          (by rw [if_neg ht, if_pos ⟨hd1, hd2⟩]; exact List.mem_singleton_self _)⟩
    · exact List.mem_flatMap.mpr ⟨e, he,
        List.mem_append_right _
          (List.mem_filterMap.mpr ⟨a, ha, by rw [if_pos hs]⟩)⟩

theorem fuzzySearchTables_score {env : Env} {th : ℚ} {q : String}
    {ts : List Table} {r : RawResult} (h : r ∈ fuzzySearchTables env th q ts) :
    ∃ p ∈ env.extractPairs q (ts.map (fun t => t.table_name)),
      r.score = (p.2 : ℚ) / 100 := by
  unfold fuzzySearchTables at h
  by_cases hts : ts = []
  · rw [if_pos hts] at h; simp at h
  rw [if_neg hts] at h
  rcases List.mem_filterMap.mp h with ⟨p, hp, he⟩
  refine ⟨p, hp, ?_⟩
  by_cases hth : (p.2 : ℚ) ≥ th
  · rw [if_pos hth] at he
    rcases hf : ts.find? (fun t => t.table_name = p.1) with _ | t
    · rw [hf] at he; exact absurd he (by simp)
    · rw [hf] at he
      rw [(Option.some_inj.mp he).symm]
  · rw [if_neg hth] at he; exact absurd he (by simp)

theorem fuzzySearchColumns_score {env : Env} {th : ℚ} {q : String}
    {ts : List Table} {r : RawResult}
    (h : r ∈ fuzzySearchColumns env th q ts) :
    ∃ p ∈ env.extractPairs q ((fuzzyColumnData ts).map (fun c => c.1)),
      r.score = (p.2 : ℚ) / 100 := by
  unfold fuzzySearchColumns at h
  by_cases hcd : fuzzyColumnData ts = []
  · rw [if_pos hcd] at h; simp at h
  rw [if_neg hcd] at h
  rcases List.mem_filterMap.mp h with ⟨p, hp, he⟩
  refine ⟨p, hp, ?_⟩
  by_cases hth : (p.2 : ℚ) ≥ th
  · rw [if_pos hth] at he
    rcases hf : (fuzzyColumnData ts).find? (fun c => c.1 = p.1) with _ | c
    · rw [hf] at he; exact absurd he (by simp)
    · rw [hf] at he
      rw [(Option.some_inj.mp he).symm]
  · rw [if_neg hth] at he; exact absurd he (by simp)

theorem fuzzySearchDict_score {env : Env} {th : ℚ} {q : String}
    {es : List DictEntry} {r : RawResult}
    (h : r ∈ fuzzySearchDict env th q es) :
    ∃ p ∈ env.extractPairs q (es.map (fun e => e.term)),
      r.score = (p.2 : ℚ) / 100 := by
  unfold fuzzySearchDict at h
  by_cases hes : es = []
  · rw [if_pos hes] at h; simp at h
  rw [if_neg hes] at h
  rcases List.mem_filterMap.mp h with ⟨p, hp, he⟩
  refine ⟨p, hp, ?_⟩
  by_cases hth : (p.2 : ℚ) ≥ th
  · rw [if_pos hth] at he
    rcases hf : es.find? (fun e => e.term = p.1) with _ | e
    · rw [hf] at he; exact absurd he (by simp)
    · rw [hf] at he
      rw [(Option.some_inj.mp he).symm]
  · rw [if_neg hth] at he; exact absurd he (by simp)

theorem score_div_100_range {n : Nat} (hn : n ≤ 100) :
    0 ≤ (n : ℚ) / 100 ∧ (n : ℚ) / 100 ≤ 1 := by
  constructor
  · positivity
  · rw [div_le_one (by norm_num)]
    exact_mod_cast hn

theorem getD_mem_of_pos {l : List ℚ} {i : Nat} (h : 0 < l.getD i 0) :
    l.getD i 0 ∈ l := by
  induction l generalizing i with
  | nil => simp [List.getD] at h
  | cons x xs ih =>
    cases i with
    | zero => simp [List.getD_cons_zero]
    | succ n =>
      rw [List.getD_cons_succ] at h ⊢
      exact List.mem_cons_of_mem x (ih h)

theorem find?_id_of_mem_nodup {st : List IndexRec} {ix : IndexRec}
    (hnd : (st.map (fun i => i.id)).Nodup) (hmem : ix ∈ st) :
    st.find? (fun i => i.id = ix.id) = some ix := by
  induction st with
  | nil => cases hmem
  | cons a rest ih =>
    simp only [List.map_cons, List.nodup_cons] at hnd
    rcases List.mem_cons.mp hmem with rfl | hmem
    · rw [List.find?_cons_of_pos _ (by simp)]
    · have hne : ¬ a.id = ix.id := by
        intro h
        exact hnd.1 (h ▸ List.mem_map_of_mem (fun i => i.id) hmem)
      rw [List.find?_cons_of_neg _ (by simpa using hne)]
      exact ih hnd.2 hmem

theorem search_tfidf_score {env : Env} {idx : IndexRec} {q : String}
    {k : Int} {r : RawResult} (hr : r ∈ search_tfidf_index env idx q k) :
    ∃ path entries, idx.index_path = some path ∧
      env.files path = some (.tfidf entries) ∧
      ∃ e ∈ entries, r.score = env.tfidfSim q e.2 := by
  unfold search_tfidf_index at hr
  rcases hip : idx.index_path with _ | path
  · rw [hip] at hr; simp [Option.bind] at hr
  rw [hip] at hr
  simp only [Option.bind] at hr
  rcases hfs : env.files path with _ | c
  · rw [hfs] at hr; simp at hr
  rw [hfs] at hr
  cases c with
  | faiss es => simp at hr
  | tfidf entries =>
    refine ⟨path, entries, rfl, hfs, ?_⟩
    rcases List.mem_filterMap.mp hr with ⟨i, hi, he⟩
    by_cases hpos :
        (entries.map (fun e => env.tfidfSim q e.2)).getD i 0 > 0
    · rw [if_pos hpos] at he
      rcases hg : entries.get? i with _ | e
      · rw [hg] at he; exact absurd he (by simp)
      · rw [hg] at he
        have hre : r =
            { e.1 with score :=
                (entries.map (fun e => env.tfidfSim q e.2)).getD i 0 } :=
          (Option.some_inj.mp he).symm
        have hm := getD_mem_of_pos hpos
        rcases List.mem_map.mp hm with ⟨e', he', hve⟩
        refine ⟨e', he', ?_⟩
        rw [hre, ← hve]
    · rw [if_neg hpos] at he; exact absurd he (by simp)

theorem simpleKeywordTables_score {q : String} {ts : List Table}
    {r : RawResult} (h : r ∈ simpleKeywordTables q ts) :
    r.score = 1 ∨ r.score = 4/5 := by
  unfold simpleKeywordTables at h
  rcases List.mem_filterMap.mp h with ⟨t, ht, he⟩
  by_cases hc : strIn q t.table_name
  · rw [if_pos hc] at he
    obtain rfl := Option.some_inj.mp he
    by_cases h2 : lc q = lc t.table_name <;> simp [h2]
  · rw [if_neg hc] at he; exact absurd he (by simp)

theorem simpleKeywordColumns_score {q : String} {ts : List Table}
    {r : RawResult} (h : r ∈ simpleKeywordColumns q ts) :
    r.score = 1 ∨ r.score = 4/5 := by
  unfold simpleKeywordColumns at h
  rcases List.mem_flatMap.mp h with ⟨t, ht, hin⟩
  rcases List.mem_filterMap.mp hin with ⟨c, hc, he⟩
  by_cases hs : strIn q c.1
  · rw [if_pos hs] at he
    obtain rfl := Option.some_inj.mp he
    by_cases h2 : lc q = lc c.1 <;> simp [h2]
  · rw [if_neg hs] at he; exact absurd he (by simp)

theorem simpleKeywordDict_score {q : String} {es : List DictEntry}
    {r : RawResult} (h : r ∈ simpleKeywordDict q es) :
    r.score = 1 ∨ r.score = 4/5 := by
  unfold simpleKeywordDict at h
  rcases List.mem_filterMap.mp h with ⟨e, he, heq⟩
  by_cases hc : strIn q e.term ∨ (e.definition ≠ "" ∧ strIn q e.definition)
  · rw [if_pos hc] at heq
    obtain rfl := Option.some_inj.mp heq
    by_cases h2 : lc q = lc e.term <;> simp [h2]
  · rw [if_neg hc] at heq; exact absurd heq (by simp)

/-! ## Claim C4 -/

/-- C4 (counterexample): the semantic strategy returns the raw inner
product: with a stored unit vector `[-1, 0]` and query embedding `[1, 0]`
the returned score is `-1`, outside `[0, 1]`. -/
theorem C4_counterexample :
    (search_index envC4 [idxC4] 1 "q" 5).map (fun r => r.score) = [-1] ∧
    ¬ (0 ≤ (-1 : ℚ)) := by
  constructor
  · norm_num +decide [search_index, search_faiss_index, envC4, idxC4,
      metaC4, load_model, faissTopK, ip, sortDescBy, insertDescBy,
      List.find?, Option.bind, List.enum, List.enumFrom,
      List.filterMap_cons]
  · norm_num

/-- C4 (amended): the exact, fuzzy and keyword strategies do return raw
scores in `[0, 1]` (exact scores are drawn from {1, 0.9, 0.8, 0.7}; fuzzy
scores are `ratio/100` with `ratio ∈ [0, 100]`; keyword scores are either
TF-IDF cosine similarities — in `[0, 1]` by sklearn's contract for
non-negative TF-IDF vectors, taken as a hypothesis — or the substring
fallback's 1.0/0.8), but the semantic strategy returns raw inner products
of L2-normalized vectors, which lie in `[-1, 1]` and can be negative —
they are not normalized into `[0, 1]`. -/
theorem C4_amended :
    (∀ (env : Env) (idx : IndexRec) (q : String) (k : Int) (r : RawResult),
      (∀ p es, env.files p = some (.faiss es) → ∀ e ∈ es, sumSq e.2 = 1) →
      sumSq (env.normalize (env.encode q)) = 1 →
      r ∈ search_faiss_index env idx q k →
      -1 ≤ r.score ∧ r.score ≤ 1) ∧
    (∀ (ms : MetaStore) (pid : Nat) (q et : String) (r : RawResult),
      r ∈ exact_search ms pid q et → 0 ≤ r.score ∧ r.score ≤ 1) ∧
    (∀ (env : Env) (pid : Nat) (q et : String) (th : ℚ) (r : RawResult),
      (∀ s ns p, p ∈ env.extractPairs s ns → p.2 ≤ 100) →
      r ∈ fuzzy_search env pid q et th → 0 ≤ r.score ∧ r.score ≤ 1) ∧
    (∀ (env : Env) (st : List IndexRec) (pid : Nat) (q et : String)
      (cfg : SearchConfig) (r : RawResult),
      (st.map (fun i => i.id)).Nodup →
      (∀ s v, 0 ≤ env.tfidfSim s v ∧ env.tfidfSim s v ≤ 1) →
      r ∈ keyword_search env st pid q et cfg →
      0 ≤ r.score ∧ r.score ≤ 1) := by
  refine ⟨?_, ?_, ?_, ?_⟩
  · intro env idx q k r hunit hq hr
    rcases faiss_score_mem hr with ⟨path, entries, hip, hfs, e, he, hsc⟩
    have h1 : |r.score| ≤ 1 := by
      rw [hsc]
      have := abs_ip_le (env.normalize (env.encode q)) e.2
      rw [hq, hunit path entries hfs e he] at this
      linarith
    exact ⟨neg_le_of_abs_le h1, le_of_abs_le h1⟩
  · intro ms pid q et r hr
    unfold exact_search at hr
    have htab : ∀ ts, r ∈ exactSearchTables q ts →
        0 ≤ r.score ∧ r.score ≤ 1 := by
      intro ts h
      rcases exactSearchTables_mem.mp h with ⟨t, _, _, rfl⟩
      by_cases hc : lc q = lc t.table_name <;> norm_num [hc]
    have hcol : ∀ ts, r ∈ exactSearchColumns q ts →
        0 ≤ r.score ∧ r.score ≤ 1 := by
      intro ts h
      rcases exactSearchColumns_mem.mp h with ⟨t, _, c, _, _, rfl⟩
      by_cases hc : lc q = lc c.1 <;> norm_num [hc]
    have hdic : ∀ es, r ∈ exactSearchDict q es →
        0 ≤ r.score ∧ r.score ≤ 1 := by
      intro es h
      rcases exactSearchDict_mem.mp h with
        ⟨e, _, ⟨ht, rfl⟩ | ⟨_, _, _, rfl⟩ | ⟨a, _, hs, rfl⟩⟩
      · by_cases hc : lc q = lc e.term <;> norm_num [hc]
      · norm_num
      · by_cases hc : lc q = lc a <;> norm_num [hc]
    rcases List.mem_append.mp hr with hr | hr
    · rcases List.mem_append.mp hr with hr | hr
      · split at hr
        · exact htab _ hr
        · simp at hr
      · split at hr
        · exact hcol _ hr
        · simp at hr
    · split at hr
      · exact hdic _ hr
      · simp at hr
  · intro env pid q et th r hex hr
    unfold fuzzy_search at hr
    rcases List.mem_append.mp hr with hr | hr
    · rcases List.mem_append.mp hr with hr | hr
      · split at hr
        · rcases fuzzySearchTables_score hr with ⟨p, hp, hsc⟩
          rw [hsc]; exact score_div_100_range (hex _ _ p hp)
        · simp at hr
      · split at hr
        · rcases fuzzySearchColumns_score hr with ⟨p, hp, hsc⟩
          rw [hsc]; exact score_div_100_range (hex _ _ p hp)
        · simp at hr
    · split at hr
      · rcases fuzzySearchDict_score hr with ⟨p, hp, hsc⟩
        rw [hsc]; exact score_div_100_range (hex _ _ p hp)
      · simp at hr
  · intro env st pid q et cfg r hnd hsim hr
    unfold keyword_search at hr
    rcases List.mem_append.mp hr with hr | hr
    · rcases List.mem_flatMap.mp hr with ⟨ix, hix, hmem⟩
      rcases List.mem_map.mp hmem with ⟨r2, hr2, rfl⟩
      rcases List.mem_filter.mp hix with ⟨hmemst, hprops⟩
      obtain ⟨hpid, htype, hbuilt, hstatus⟩ := of_decide_eq_true hprops
      have hfind : st.find? (fun i => i.id = ix.id) = some ix :=
        find?_id_of_mem_nodup hnd hmemst
      unfold search_index at hr2
      rw [hfind] at hr2
      simp only [] at hr2
      rw [if_pos hbuilt] at hr2
      have hne : ¬ (ix.index_type = "faiss") := by rw [htype]; decide
      rw [if_neg hne, if_pos htype] at hr2
      rcases search_tfidf_score hr2 with ⟨path, entries, hip, hfs, e, he, hsc⟩
      show 0 ≤ r2.score ∧ r2.score ≤ 1
      rw [hsc]
      exact hsim q e.2
    · by_cases htf : readyTfidfIndexes st pid = []
      · rw [if_pos htf] at hr
        unfold simple_keyword_search at hr
        rcases List.mem_append.mp hr with hr | hr
        · rcases List.mem_append.mp hr with hr | hr
          · split at hr
            · rcases simpleKeywordTables_score hr with h | h <;>
                rw [h] <;> norm_num
            · simp at hr
          · split at hr
            · rcases simpleKeywordColumns_score hr with h | h <;>
                rw [h] <;> norm_num
            · simp at hr
        · split at hr
          · rcases simpleKeywordDict_score hr with h | h <;>
              rw [h] <;> norm_num
          · simp at hr
      · rw [if_neg htf] at hr
        simp at hr

/-- C4 (witness): the amended theorem applied to the dense index of the
counterexample (unit vectors, score −1 ∈ [−1, 1]), to an exact table match
(score 0.8 ∈ [0, 1]), to a fuzzy table match (score 0.85 ∈ [0, 1]) and to
a keyword hit from a ready sparse index (cosine similarity
0.5 ∈ [0, 1]). -/
theorem C4_amended_witness :
    (-1 ≤ ({ metaC4 with score := -1 } : RawResult).score ∧
      ({ metaC4 with score := -1 } : RawResult).score ≤ 1) ∧
    (0 ≤ ({ typ := "table", id := 1, name := "customers",
            table_name := "customers", score := 4/5,
            search_method := "exact",
            source := "table_names" } : RawResult).score ∧
      ({ typ := "table", id := 1, name := "customers",
         table_name := "customers", score := 4/5,
         search_method := "exact",
         source := "table_names" } : RawResult).score ≤ 1) ∧
    (0 ≤ ({ typ := "table", id := 1, name := "customers",
            table_name := "customers", score := (85 : ℚ)/100,
            search_method := "fuzzy",
            source := "table_names" } : RawResult).score ∧
      ({ typ := "table", id := 1, name := "customers",
         table_name := "customers", score := (85 : ℚ)/100,
         search_method := "fuzzy",
         source := "table_names" } : RawResult).score ≤ 1) ∧
    (0 ≤ ({ metaC6 with
            score := 1/2, search_method := "keyword", index_id := 1 } :
            RawResult).score ∧
      ({ metaC6 with
         score := 1/2, search_method := "keyword", index_id := 1 } :
         RawResult).score ≤ 1) :=
  ⟨C4_amended.1 envC4 idxC4 "q" 5 { metaC4 with score := -1 }
    (by
      intro p es hpe e he
      by_cases hp : p = "fp"
      · simp only [envC4] at hpe
        rw [hp, if_pos rfl] at hpe
        injection hpe with h2
        injection h2 with h3
        subst h3
        rcases List.mem_singleton.mp he with rfl
        norm_num [sumSq]
      · simp [envC4, hp] at hpe)
    (by norm_num [envC4, sumSq])
    (by
      norm_num +decide [search_faiss_index, envC4, idxC4, metaC4,
        load_model, faissTopK, ip, sortDescBy, insertDescBy, List.find?,
        Option.bind, List.enum, List.enumFrom, List.filterMap_cons]),
   C4_amended.2.1 msC5b 1 "customer" "unknown"
    { typ := "table", id := 1, name := "customers",
      table_name := "customers", score := 4/5, search_method := "exact",
      source := "table_names" }
    (by
      norm_num +decide [exact_search, exactSearchTables,
        exactSearchColumns, exactSearchDict, msC5b, tablesOf, dictOf,
        strIn, lc, List.filterMap_cons]),
   C4_amended.2.2.1 envC4f 1 "custmers" "unknown" 70
    { typ := "table", id := 1, name := "customers",
      table_name := "customers", score := (85 : ℚ)/100,
      search_method := "fuzzy", source := "table_names" }
    (by
      intro s ns p hp
      simp only [envC4f] at hp
      rcases List.mem_singleton.mp hp with rfl
      norm_num)
    (by
      norm_num +decide [fuzzy_search, fuzzySearchTables,
        fuzzySearchColumns, fuzzySearchDict, fuzzyColumnData, envC4f,
        msC5b, tablesOf, dictOf, List.find?, List.filterMap_cons]),
   C4_amended.2.2.2 envC6 stC6 1 "q" "unknown" {}
    { metaC6 with
      score := 1/2, search_method := "keyword", index_id := 1 }
    (by decide)
    (by intro s v; constructor <;> norm_num [envC6])
    (by
      norm_num +decide [keyword_search, readyTfidfIndexes, search_index,
        search_tfidf_index, simple_keyword_search, simpleKeywordTables,
        simpleKeywordColumns, simpleKeywordDict, envC6, stC6, idxC6,
        metaC6, emptyMeta, tablesOf, dictOf, argsortAsc, sortAscBy,
        insertAscBy, pySliceFrom, List.find?, Option.bind, List.getD,
        List.getElem?_cons_zero, List.filterMap_cons, List.range_succ,
        List.range_zero])⟩

/-! ## Claim C5 -/

/-- C5 (counterexample): a glossary term strictly containing the query is
scored 0.9 — not the claimed 0.8 for partial containment of a primary name
— and containment is checked in one direction only: a query that strictly
contains a table name (the reverse direction) yields no candidate at all,
although the name does occur inside the query. -/
theorem C5_counterexample :
    (exact_search msC5a 1 "customer" "unknown").map
      (fun r => (r.score, r.source)) = [(9/10, "dictionary_terms")] ∧
    ((9 : ℚ)/10 ≠ 1 ∧ (9 : ℚ)/10 ≠ 4/5 ∧ (9 : ℚ)/10 ≠ 7/10) ∧
    strIn "customers" "customers list" ∧
    exact_search msC5b 1 "customers list" "unknown" = [] := by
  refine ⟨?_, by norm_num, by decide, ?_⟩ <;>
  norm_num +decide [exact_search, exactSearchTables, exactSearchColumns,
    exactSearchDict, msC5a, msC5b, tablesOf, dictOf, strIn, lc,
    List.filterMap_cons]

/-- C5 (amended): the exact strategy tests case-insensitive containment of
the query inside the candidate name only (one direction, not both);
table and column candidates score 1.0 on exact equality and 0.8 on proper
containment, a glossary **term** containing the query scores 1.0 on
equality and 0.9 (not 0.8) on proper containment, a match found only in a
free-text definition scores 0.7, and an alias match scores 0.9 on equality
and 0.7 on proper containment. -/
theorem C5_amended (q : String) (ts : List Table) (es : List DictEntry) :
    (∀ r, r ∈ exactSearchTables q ts ↔ ∃ t ∈ ts, strIn q t.table_name ∧
      r = { typ := "table", id := t.id, name := t.table_name,
            table_name := t.table_name,
            score := if lc q = lc t.table_name then 1 else 4/5,
            search_method := "exact", source := "table_names" }) ∧
    (∀ r, r ∈ exactSearchColumns q ts ↔ ∃ t ∈ ts, ∃ c ∈ t.columns,
      strIn q c.1 ∧
      r = { typ := "column", table_id := t.id, table_name := t.table_name,
            column_name := c.1,
            score := if lc q = lc c.1 then 1 else 4/5,
            search_method := "exact", source := "column_names" }) ∧
    (∀ r, r ∈ exactSearchDict q es ↔ ∃ e ∈ es,
      (strIn q e.term ∧
        r = { typ := "dictionary", id := e.id, name := e.term,
              score := if lc q = lc e.term then 1 else 9/10,
              search_method := "exact", source := "dictionary_terms" }) ∨
      (¬ strIn q e.term ∧ e.definition ≠ "" ∧ strIn q e.definition ∧
        r = { typ := "dictionary", id := e.id, name := e.term, score := 7/10,
              search_method := "exact",
              source := "dictionary_definitions" }) ∨
      (∃ a ∈ e.aliases, strIn q a ∧
        r = { typ := "dictionary", id := e.id, name := e.term,
              matched_alias := some a,
              score := if lc q = lc a then 9/10 else 7/10,
              search_method := "exact", source := "dictionary_aliases" })) :=
  ⟨fun _ => exactSearchTables_mem, fun _ => exactSearchColumns_mem,
   fun _ => exactSearchDict_mem⟩

/-- C5 (witness): the amended characterization applied to the
counterexample store: the glossary term `customer_id` matched by query
`customer` is exactly the 0.9-scored record. -/
theorem C5_amended_witness :
    ({ typ := "dictionary", id := 1, name := "customer_id",
       score := 9/10, search_method := "exact",
       source := "dictionary_terms" } : RawResult) ∈
      exactSearchDict "customer" msC5a.dict_entries :=
  ((C5_amended "customer" [] msC5a.dict_entries).2.2 _).mpr
    (by
      refine ⟨msC5a.dict_entries.head (by decide), by decide, Or.inl ⟨by decide, ?_⟩⟩
      norm_num +decide [msC5a])

/-! ## Claim C7 -/

/-- C7: a missing body or empty query text is rejected with HTTP 400
("Query is required") before any strategy runs; a strategy that cannot run
degrades to an empty list instead of raising — the semantic runner over a
project with no ready dense indexes yields `[]`, an unrecognized method
yields `[]`, a swallowed exception (missing index file) yields `[]` for
both index kinds, and the exact runner over an empty metadata store yields
`[]`. -/
theorem C7_failure_policy :
    (∀ (env : Env) (st : List IndexRec) (pid : Nat) (cfg : SearchConfig),
      test_search env st pid none cfg = .badRequest "Query is required") ∧
    (∀ (env : Env) (st : List IndexRec) (pid : Nat) (b : SearchRequest)
      (cfg : SearchConfig), b.query = "" →
      test_search env st pid (some b) cfg = .badRequest "Query is required") ∧
    (∀ (env : Env) (st : List IndexRec) (pid : Nat) (q : String)
      (cfg : SearchConfig), readyFaissIndexes st pid = [] →
      search_by_method env st pid q "semantic" cfg = []) ∧
    (∀ (env : Env) (st : List IndexRec) (pid : Nat) (q m : String)
      (cfg : SearchConfig), m ≠ "semantic" → m ≠ "keyword" → m ≠ "fuzzy" →
      m ≠ "exact" → search_by_method env st pid q m cfg = []) ∧
    (∀ (env : Env) (idx : IndexRec) (q : String) (k : Int),
      idx.index_path.bind env.files = none →
      search_faiss_index env idx q k = [] ∧
      search_tfidf_index env idx q k = []) ∧
    (∀ (ms : MetaStore) (pid : Nat) (q : String), tablesOf ms pid = [] →
      dictOf ms pid = [] → exact_search ms pid q "unknown" = []) := by
  refine ⟨?_, ?_, ?_, ?_, ?_, ?_⟩
  · intro env st pid cfg
    rfl
  · intro env st pid b cfg h
    simp [test_search, h]
  · intro env st pid q cfg h
    simp [search_by_method, semantic_search, h]
  · intro env st pid q m cfg h1 h2 h3 h4
    simp [search_by_method, h1, h2, h3, h4]
  · intro env idx q k h
    constructor
    · unfold search_faiss_index
      rw [h]
    · unfold search_tfidf_index
      rw [h]
  · intro ms pid q h1 h2
    simp [exact_search, exactSearchTables, exactSearchColumns,
      exactSearchDict, h1, h2]

/-- C7 (witness): the failure policy applied at concrete inputs — empty
body, empty query text, an empty descriptor table, an unknown method, a
descriptor with no persisted file, and an empty metadata store. -/
theorem C7_failure_policy_witness :
    test_search env0 [] 1 none {} = .badRequest "Query is required" ∧
    test_search env0 [] 1 (some { query := "" }) {} =
      .badRequest "Query is required" ∧
    search_by_method env0 [] 1 "customer" "semantic" {} = [] ∧
    search_by_method env0 [] 1 "customer" "bogus" {} = [] ∧
    (search_faiss_index env0 idxC8 "q" 5 = [] ∧
     search_tfidf_index env0 idxC8 "q" 5 = []) ∧
    exact_search emptyMeta 1 "customer" "unknown" = [] :=
  ⟨C7_failure_policy.1 env0 [] 1 {},
   C7_failure_policy.2.1 env0 [] 1 { query := "" } {} rfl,
   C7_failure_policy.2.2.1 env0 [] 1 "customer" {} rfl,
   C7_failure_policy.2.2.2.1 env0 [] 1 "customer" "bogus" {}
     (by decide) (by decide) (by decide) (by decide),
   C7_failure_policy.2.2.2.2.1 env0 idxC8 "q" 5 rfl,
   C7_failure_policy.2.2.2.2.2 emptyMeta 1 "customer" rfl rfl⟩
